import Mathlib

/-!
# chown04: error-path conformance test of chown(2)

A shallow embedding of `testcases/kernel/syscalls/chown/chown04.c`.

The C program is a straight-line script over process-global state.  The
embedding keeps that shape: every C function becomes a state transformer over
`World`, whose result is either a normal return or the end of the process.
The operating system and the test library are represented by an oracle `Env`
that fixes, for every call site, whether the call succeeds.
-/

namespace Chown04

/-! ## Constants -/

/-- Error numbers of `<errno.h>` (Linux values). -/
def EPERM : Int := 1
def ENOENT : Int := 2
def EACCES : Int := 13
def EFAULT : Int := 14
def ENOTDIR : Int := 20
def EROFS : Int := 30
def ENAMETOOLONG : Int := 36
def ELOOP : Int := 40

def DIR_TEMP : String := "testdir_1"
def TEST_FILE1 : String := "tfile_1"
def TEST_FILE2 : String := DIR_TEMP ++ "/tfile_2"
def TEST_FILE3 : String := "t_file/tfile_3"
def TEST_FILE4 : String := "test_eloop1"
def TEST_FILE5 : String := "mntpoint"

/-! ## Data model -/

/-- A `char *` value: a string literal, the address of one of the two global
arrays, or a raw address (`(char *)-1` is `addr (-1)`, the null pointer is
`addr 0`). -/
inductive Ptr where
  | lit (s : String)
  | high_address_node
  | Longpathname
  | addr (a : Int)
  deriving DecidableEq, Repr

/-- The value `MAP_FAILED`, that is `(void *)-1`. -/
def MAP_FAILED : Ptr := Ptr.addr (-1)

/-- The functions a `setupfunc` pointer of the table can point to. -/
inductive SetupFn where
  | setup1
  | setup2
  | setup3
  | longpath_setup
  deriving DecidableEq, Repr

/-- One entry of `struct test_case_t`; `setupfunc = none` is `NULL`. -/
structure test_case_t where
  pathname : Ptr
  exp_errno : Int
  setupfunc : Option SetupFn
  deriving DecidableEq, Repr

/-- The static initialiser of `test_cases[]`. -/
def test_cases : List test_case_t :=
  [ ⟨Ptr.lit TEST_FILE1, EPERM, some SetupFn.setup1⟩,
    ⟨Ptr.lit TEST_FILE2, EACCES, some SetupFn.setup2⟩,
    ⟨Ptr.high_address_node, EFAULT, none⟩,
    ⟨Ptr.addr (-1), EFAULT, none⟩,
    ⟨Ptr.Longpathname, ENAMETOOLONG, some SetupFn.longpath_setup⟩,
    ⟨Ptr.lit "", ENOENT, none⟩,
    ⟨Ptr.lit TEST_FILE3, ENOTDIR, some SetupFn.setup3⟩,
    ⟨Ptr.lit TEST_FILE4, ELOOP, none⟩,
    ⟨Ptr.lit TEST_FILE5, EROFS, none⟩ ]

/-- The global `TST_TOTAL = sizeof(test_cases) / sizeof(*test_cases)`. -/
def TST_TOTAL : Nat := test_cases.length

/-- The global `exp_enos[]`, without its terminating 0. -/
def exp_enos : List Int :=
  [EPERM, EACCES, EFAULT, ENAMETOOLONG, ENOENT, ENOTDIR, ELOOP, EROFS]

/-- Result types of the test library (`TPASS`, `TFAIL`, ...). -/
inductive TType where
  | TPASS
  | TFAIL
  | TBROK
  | TWARN
  | TCONF
  deriving DecidableEq, Repr

/-- The errno-printing flag or-ed into a result type. -/
inductive EFlag where
  | plain
  | TERRNO
  | TTERRNO
  deriving DecidableEq, Repr

/-- An argument of a printf-style message. -/
inductive Arg where
  | int (n : Int)
  | str (s : String)
  | strerror (e : Int)
  deriving DecidableEq, Repr

/-- One message handed to the result reporter (`tst_resm` or `tst_brkm`). -/
structure Report where
  ttype : TType
  flag : EFlag
  fmt : String
  args : List Arg
  deriving DecidableEq, Repr

/-- The call sites of the operations whose outcome the environment decides.
The first group is in `setup`, then `setup1`, `setup2`, `setup3`, `cleanup`. -/
inductive Step where
  | tst_require_root
  | tst_mkfs
  | getpwnam
  | seteuid_nobody
  | tst_tmpdir
  | mmap
  | symlink1
  | symlink2
  | seteuid_root
  | mkdir_mntpoint
  | mount
  | seteuid_back
  | s1_open
  | s1_seteuid0
  | s1_fchown
  | s1_close
  | s1_seteuid_old
  | s2_seteuid0
  | s2_mkdir
  | s2_open
  | s2_close
  | s2_seteuid_old
  | s3_open
  | s3_close
  | cl_seteuid0
  | cl_umount
  | tst_rmdir
  deriving DecidableEq, Repr

/-- One executed `chown(file_name, owner, group)`, with the effective user id
of the process at the time of the call. -/
structure ChownCall where
  file_name : Ptr
  owner : Nat
  group : Nat
  euid : Nat
  deriving DecidableEq, Repr

/-- Everything outside the program: command line, operating system, library.
`ok s` says whether the operation at call site `s` succeeds; `chown k` is the
pair (return value, errno) of the k-th `chown` call of the run. -/
structure Env where
  ok : Step → Bool
  parse_msg : Option String
  dflag : Int
  device : String
  fstype : String
  euid0 : Nat
  egid : Nat
  pw_uid : Nat
  fd : Nat
  mmap_addr : Nat
  high_address : Ptr
  loops : Nat
  chown : Nat → Int × Int
  PATH_MAX : Nat

/-- The process state: the globals of the file and of the test library, the
effective user id, and a record of what the process did. -/
structure World where
  euid : Nat
  Longpathname : List Char
  test_cases : List test_case_t
  fstype : String
  device : String
  dflag : Int
  mount_flag : Int
  bad_addr : Ptr
  ltpuser : Option Nat
  tst_count : Nat
  TEST_RETURN : Int
  TEST_ERRNO : Int
  log : List Report
  trace : List Step
  chown_calls : List ChownCall
  crashed : Bool
  deriving DecidableEq, Repr

/-- The state at program start: static initialisers, zeroed arrays. -/
def World.init (env : Env) : World :=
  { euid := env.euid0
    Longpathname := List.replicate (env.PATH_MAX + 2) (Char.ofNat 0)
    test_cases := Chown04.test_cases
    fstype := "ext2"
    device := ""
    dflag := 0
    mount_flag := 0
    bad_addr := Ptr.addr 0
    ltpuser := none
    tst_count := 0
    TEST_RETURN := 0
    TEST_ERRNO := 0
    log := []
    trace := []
    chown_calls := []
    crashed := false }

/-! ## Control: return or end of process -/

/-- Outcome of running a piece of the program: it returns a value, or the
process has ended (`exit`, also after a memory fault). -/
inductive Res (α : Type) where
  | ret (a : α) (w : World)
  | exit (w : World)

/-- The final state of an outcome. -/
def Res.world {α : Type} : Res α → World
  | Res.ret _ w => w
  | Res.exit w => w

/-- A C function body: a transformer of the process state. -/
def M (α : Type) : Type := World → Res α

def M.pure {α : Type} (a : α) : M α := fun w => Res.ret a w

/-- Continue with `f` after a normal return; an ended process stays ended. -/
def Res.andThen {α β : Type} : Res α → (α → World → Res β) → Res β
  | Res.ret a w1, f => f a w1
  | Res.exit w1, _ => Res.exit w1

def M.bind {α β : Type} (m : M α) (f : α → M β) : M β := fun w =>
  (m w).andThen f

instance : Monad M where
  pure := M.pure
  bind := M.bind

/-- Read the process state. -/
def getW : M World := fun w => Res.ret w w

/-- Update the process state. -/
def modifyW (f : World → World) : M Unit := fun w => Res.ret () (f w)

/-- Record that the operation at call site `s` was executed. -/
def World.did (w : World) (s : Step) : World := { w with trace := w.trace ++ [s] }

/-- Append a message to the result log. -/
def World.report (w : World) (r : Report) : World := { w with log := w.log ++ [r] }

/-- The loop `for (i = lo; n iterations; i++) body(i)`: the body runs for
`i = lo, lo+1, ..., lo+n-1` in this order. -/
def forRange : Nat → Nat → (Nat → M Unit) → M Unit
  | 0, _, _ => M.pure ()
  | n + 1, i, body => M.bind (body i) (fun _ => forRange n (i + 1) body)

/-- The loop `for (i = lo; i < hi; i++) body(i)`, for a body that assigns neither `i`
nor `hi`. -/
def forLoop (lo hi : Nat) (body : Nat → M Unit) : M Unit :=
  forRange (hi - lo) lo body

/-! ## The test library and the operating system -/

/-- Modelled from the spec: `tst_resm` of the test library (not part of this
file) records one result and returns to the caller. -/
def tst_resm (t : TType) (f : EFlag) (fmt : String) (args : List Arg) : M Unit :=
  fun w => Res.ret () (w.report ⟨t, f, fmt, args⟩)

/-- Modelled from the spec: `tst_exit` of the test library ends the process. -/
def tst_exit {α : Type} : M α := fun w => Res.exit w

/-- Modelled from the spec: `tst_brkm` of the test library records the result,
runs the cleanup function when one is given (`none` is `NULL`), and ends the
process: it aborts the remainder of the run and still attempts teardown. -/
def tst_brkm {α : Type} (t : TType) (f : EFlag) (cleanup_fn : Option (M Unit))
    (fmt : String) (args : List Arg) : M α := fun w =>
  match cleanup_fn with
  | none => Res.exit (w.report ⟨t, f, fmt, args⟩)
  | some c => Res.exit (c (w.report ⟨t, f, fmt, args⟩)).world

/-- Modelled from the spec: the setup helpers `tst_require_root`, `tst_mkfs`
and `tst_tmpdir` of the test library each succeed or abort the run; the
result type reported on abort is `TBROK` (a broken run). -/
def tst_helper (env : Env) (s : Step) : M Unit := fun w =>
  if env.ok s then Res.ret () (w.did s)
  else Res.exit ((w.did s).report ⟨TType.TBROK, EFlag.plain, "setup helper failed", []⟩)

/-- Modelled from the spec: `tst_rmdir` removes the scratch directory. -/
def tst_rmdir : M Unit := fun w => Res.ret () (w.did Step.tst_rmdir)

/-- Library calls with no effect on the modelled state: `tst_sig`. -/
def tst_sig : M Unit := M.pure ()

/-- Library macro with no effect on the modelled state: `TEST_PAUSE`. -/
def TEST_PAUSE : M Unit := M.pure ()

/-- Library macro with no effect on the modelled state: `TEST_CLEANUP`. -/
def TEST_CLEANUP : M Unit := M.pure ()

/-- Library macro with no effect on the modelled state: `TEST_EXP_ENOS`. -/
def TEST_EXP_ENOS (_ : List Int) : M Unit := M.pure ()

/-- Modelled from the spec: `parse_opts` of the test library returns an error
message or `NULL`, and stores the values of the options `-T` and `-D`. -/
def parse_opts (env : Env) : M (Option String) := fun w =>
  Res.ret env.parse_msg { w with dflag := env.dflag, device := env.device, fstype := env.fstype }

/-- Modelled from the spec: `get_high_address` of the test library returns an
address outside the accessible address space. -/
def get_high_address (env : Env) : M Ptr := M.pure env.high_address

/-- A system call that returns 0 on success and -1 on failure (`symlink`,
`mkdir`, `mount`, `umount`, `fchown`, `close`). -/
def sys_call (env : Env) (s : Step) : M Int := fun w =>
  Res.ret (if env.ok s then 0 else -1) (w.did s)

/-- The system call `open`: a descriptor on success, -1 on failure. -/
def sys_open (env : Env) (s : Step) : M Int := fun w =>
  Res.ret (if env.ok s then (env.fd : Int) else -1) (w.did s)

/-- The system call `seteuid`: on success the effective user id becomes `uid`
and 0 is returned; on failure nothing changes and -1 is returned. -/
def seteuid (env : Env) (s : Step) (uid : Nat) : M Int := fun w =>
  if env.ok s then Res.ret 0 { w.did s with euid := uid }
  else Res.ret (-1) (w.did s)

/-- The system call `geteuid`. -/
def geteuid : M Nat := fun w => Res.ret w.euid w

/-- The system call `getegid`. -/
def getegid (env : Env) : M Nat := M.pure env.egid

/-- The library call `getpwnam("nobody")`: a passwd entry, or `NULL`. -/
def getpwnam (env : Env) : M (Option Nat) := fun w =>
  Res.ret (if env.ok Step.getpwnam then some env.pw_uid else none) (w.did Step.getpwnam)

/-- The system call `mmap`: a page address on success, `MAP_FAILED` on failure. -/
def mmap (env : Env) : M Ptr := fun w =>
  Res.ret (if env.ok Step.mmap then Ptr.addr (env.mmap_addr : Nat) else MAP_FAILED)
    (w.did Step.mmap)

/-- The process is killed by a memory fault. -/
def fault {α : Type} : M α := fun w => Res.exit { w with crashed := true }

/-- Read `ltpuser->pw_uid`; dereferencing `NULL` is a memory fault. -/
def pw_uid : M Nat := fun w =>
  match w.ltpuser with
  | some u => Res.ret u w
  | none => fault w

/-- Read `test_cases[i]`; an index outside the table is a memory fault. -/
def test_case (i : Nat) : M test_case_t := fun w =>
  match w.test_cases[i]? with
  | some tc => Res.ret tc w
  | none => fault w

/-- The table with `test_cases[i].pathname = p`. -/
def set_pathname : List test_case_t → Nat → Ptr → List test_case_t
  | [], _, _ => []
  | tc :: rest, 0, p => { tc with pathname := p } :: rest
  | tc :: rest, i + 1, p => tc :: set_pathname rest i p

/-- Modelled from the spec: `SAFE_SYMLINK` and `SAFE_MKDIR` of the test
library run the system call and abort the run as broken when it fails. -/
def SAFE_CALL (env : Env) (cleanup_fn : Option (M Unit)) (s : Step) (fmt : String) : M Unit := do
  let rval ← sys_call env s
  if rval == -1 then
    tst_brkm TType.TBROK EFlag.TERRNO cleanup_fn fmt []

/-- Modelled from the spec: `SAFE_SETEUID` of the test library runs `seteuid`
and aborts the run as broken when it fails. -/
def SAFE_SETEUID (env : Env) (cleanup_fn : Option (M Unit)) (s : Step) (uid : Nat) : M Unit := do
  let rval ← seteuid env s uid
  if rval == -1 then
    tst_brkm TType.TBROK EFlag.TERRNO cleanup_fn "seteuid(%u) failed" [Arg.int uid]

/-- The call `chown(file_name, owner, group)`: the environment gives the
return value and the value of `errno` after the call. -/
def chown (env : Env) (file_name : Ptr) (owner group : Nat) : M (Int × Int) := fun w =>
  Res.ret (env.chown w.chown_calls.length)
    { w with chown_calls := w.chown_calls ++ [⟨file_name, owner, group, w.euid⟩] }

/-- The library macro `TEST(chown(...))`: `TEST_RETURN` receives the return
value and `TEST_ERRNO` the value of `errno` after the call. -/
def TEST_chown (env : Env) (file_name : Ptr) (owner group : Nat) : M Unit := do
  let r ← chown env file_name owner group
  modifyW (fun w => { w with TEST_RETURN := r.1, TEST_ERRNO := r.2 })

/-! ## The functions of chown04.c -/

/-- Write `buf[i] = c`; `none` when `i` is outside the array. -/
def store (buf : List Char) (i : Nat) (c : Char) : Option (List Char) :=
  if i < buf.length then some (buf.set i c) else none

/-- The loop of `longpath_setup` from index `i` on: the final array and the
indices written, in order; `none` when a write falls outside the array. -/
def longpath_loop (PATH_MAX : Nat) (i : Nat) (buf : List Char) (written : List Nat) :
    Option (List Char × List Nat) :=
  if i ≤ PATH_MAX + 1 then
    match store buf i 'a' with
    | none => none
    | some buf1 => longpath_loop PATH_MAX (i + 1) buf1 (written ++ [i])
  else some (buf, written)
termination_by PATH_MAX + 2 - i

/-- The function `longpath_setup()`: it runs the loop on the global array. -/
def longpath_setup (env : Env) : M Unit := fun w =>
  match longpath_loop env.PATH_MAX 0 w.Longpathname [] with
  | some r => Res.ret () { w with Longpathname := r.1 }
  | none => fault w

/-- The function `cleanup()`. -/
def cleanup (env : Env) : M Unit := do
  TEST_CLEANUP
  if (← seteuid env Step.cl_seteuid0 0) == -1 then
    tst_resm TType.TWARN EFlag.TERRNO "seteuid(0) failed" []
  let w ← getW
  if w.mount_flag != 0 then
    if (← sys_call env Step.cl_umount) < 0 then
      tst_brkm TType.TBROK EFlag.TERRNO none "umount device:%s failed" [Arg.str w.device]
  tst_rmdir

/-- The function `setup1()`. -/
def setup1 (env : Env) : M Unit := do
  let old_uid ← geteuid
  let fd ← sys_open env Step.s1_open
  if fd == -1 then
    tst_brkm TType.TBROK EFlag.TERRNO (some (cleanup env)) "opening \"%s\" failed"
      [Arg.str TEST_FILE1]
  if (← seteuid env Step.s1_seteuid0 0) == -1 then
    tst_brkm TType.TBROK EFlag.TERRNO (some (cleanup env)) "seteuid(0) failed" []
  if (← sys_call env Step.s1_fchown) == -1 then
    tst_brkm TType.TBROK EFlag.TERRNO (some (cleanup env)) "fchown failed" []
  if (← sys_call env Step.s1_close) == -1 then
    tst_brkm TType.TBROK EFlag.TERRNO (some (cleanup env)) "closing \"%s\" failed"
      [Arg.str TEST_FILE1]
  if (← seteuid env Step.s1_seteuid_old old_uid) == -1 then
    tst_brkm TType.TBROK EFlag.TERRNO (some (cleanup env)) "seteuid(%d) failed"
      [Arg.int old_uid]

/-- The function `setup2()`. -/
def setup2 (env : Env) : M Unit := do
  let old_uid ← geteuid
  if (← seteuid env Step.s2_seteuid0 0) == -1 then
    tst_brkm TType.TBROK EFlag.TERRNO (some (cleanup env)) "seteuid(0) failed" []
  if (← sys_call env Step.s2_mkdir) == -1 then
    tst_brkm TType.TBROK EFlag.TERRNO (some (cleanup env)) "mkdir failed" []
  let fd ← sys_open env Step.s2_open
  if fd == -1 then
    tst_brkm TType.TBROK EFlag.TERRNO (some (cleanup env)) "fchown failed" []
  if (← sys_call env Step.s2_close) == -1 then
    tst_brkm TType.TBROK EFlag.TERRNO (some (cleanup env)) "closing \"%s\" failed"
      [Arg.str TEST_FILE2]
  if (← seteuid env Step.s2_seteuid_old old_uid) == -1 then
    tst_brkm TType.TBROK EFlag.TERRNO (some (cleanup env)) "seteuid(%d) failed"
      [Arg.int old_uid]

/-- The function `setup3()`. -/
def setup3 (env : Env) : M Unit := do
  let fd ← sys_open env Step.s3_open
  if fd == -1 then
    tst_brkm TType.TBROK EFlag.TERRNO (some (cleanup env)) "opening \"t_file\" failed" []
  if (← sys_call env Step.s3_close) == -1 then
    tst_brkm TType.TBROK EFlag.TERRNO (some (cleanup env)) "closing \"t_file\" failed" []

/-- A call through a `setupfunc` pointer. -/
def call_setupfunc (env : Env) : SetupFn → M Unit
  | SetupFn.setup1 => setup1 env
  | SetupFn.setup2 => setup2 env
  | SetupFn.setup3 => setup3 env
  | SetupFn.longpath_setup => longpath_setup env

/-- The body of the last loop of `setup()`. -/
def setup_case (env : Env) (i : Nat) : M Unit := do
  let tc ← test_case i
  match tc.setupfunc with
  | some f => call_setupfunc env f
  | none => M.pure ()

/-- The function `setup()`. -/
def setup (env : Env) : M Unit := do
  tst_helper env Step.tst_require_root
  tst_helper env Step.tst_mkfs
  tst_sig
  let p ← getpwnam env
  modifyW (fun w => { w with ltpuser := p })
  if (← getW).ltpuser == none then
    tst_brkm TType.TBROK EFlag.TERRNO none "getpwnam(\"nobody\") failed" []
  if (← seteuid env Step.seteuid_nobody (← pw_uid)) == -1 then
    tst_brkm TType.TBROK EFlag.TERRNO none "seteuid(%d) failed" [Arg.int (← pw_uid)]
  TEST_PAUSE
  tst_helper env Step.tst_tmpdir
  let a ← mmap env
  modifyW (fun w => { w with bad_addr := a })
  if (← getW).bad_addr == MAP_FAILED then
    tst_brkm TType.TBROK EFlag.TERRNO (some (cleanup env)) "mmap failed" []
  modifyW (fun w => { w with test_cases := set_pathname w.test_cases 3 w.bad_addr })
  SAFE_CALL env (some (cleanup env)) Step.symlink1 "symlink(%s,%s) failed"
  SAFE_CALL env (some (cleanup env)) Step.symlink2 "symlink(%s,%s) failed"
  SAFE_SETEUID env (some (cleanup env)) Step.seteuid_root 0
  SAFE_CALL env (some (cleanup env)) Step.mkdir_mntpoint "mkdir(%s,%o) failed"
  if (← sys_call env Step.mount) < 0 then
    tst_brkm TType.TBROK EFlag.TERRNO (some (cleanup env)) "mount device:%s failed"
      [Arg.str (← getW).device]
  modifyW (fun w => { w with mount_flag := 1 })
  SAFE_SETEUID env (some (cleanup env)) Step.seteuid_back (← pw_uid)
  forLoop 0 TST_TOTAL (setup_case env)

/-- The classification of one outcome in `main` (the `if` chain after
`TEST(chown(...))`), for case `i`. -/
def check_result (i : Nat) : M Unit := do
  let w ← getW
  if w.TEST_RETURN == 0 then
    tst_resm TType.TFAIL EFlag.plain "chown succeeded unexpectedly" []
  else
    let tc ← test_case i
    if w.TEST_ERRNO == tc.exp_errno then
      tst_resm TType.TPASS EFlag.TTERRNO "chown failed" []
    else
      tst_resm TType.TFAIL EFlag.TTERRNO "chown failed; expected: %d - %s"
        [Arg.int tc.exp_errno, Arg.strerror tc.exp_errno]

/-- The body of the scenario loop of `main`, for case `i`. -/
def run_case (env : Env) (user_id group_id : Nat) (i : Nat) : M Unit := do
  let tc ← test_case i
  let file_name ←
    (if tc.pathname == Ptr.high_address_node then get_high_address env else M.pure tc.pathname)
  TEST_chown env file_name user_id group_id
  check_result i

/-- The loops of `main`: `TEST_LOOPING(lc)` holds for `lc < env.loops`. -/
def test_loop (env : Env) (user_id group_id : Nat) : M Unit :=
  forLoop 0 env.loops (fun _ => do
    modifyW (fun w => { w with tst_count := 0 })
    forLoop 0 TST_TOTAL (run_case env user_id group_id))

/-- The function `main()`. -/
def main (env : Env) : M Unit := do
  let msg ← parse_opts env
  if msg != none then
    tst_brkm TType.TBROK EFlag.plain none "OPTION PARSING ERROR - %s" [Arg.str (msg.getD "")]
  if (← getW).dflag == 0 then
    tst_brkm TType.TBROK EFlag.plain none
      "you must specify the device used for mounting with -D option" []
  setup env
  TEST_EXP_ENOS exp_enos
  let user_id ← geteuid
  let group_id ← getegid env
  test_loop env user_id group_id
  cleanup env
  tst_exit

/-- The final state of a run of the program in environment `env`. -/
def run (env : Env) : World := (main env (World.init env)).world

/-- An environment in which every operation succeeds, the device option is
given, one iteration is run, and the k-th `chown` call fails with the errno
expected by case k of the table. -/
def env_good : Env :=
  { ok := fun _ => true
    parse_msg := none
    dflag := 1
    device := "/dev/loop0"
    fstype := "ext2"
    euid0 := 0
    egid := 65534
    pw_uid := 65534
    fd := 3
    mmap_addr := 4096
    high_address := Ptr.addr 140737488351232
    loops := 1
    chown := fun k => (-1, ((test_cases[k]?).map (fun tc => tc.exp_errno)).getD 0)
    PATH_MAX := 4096 }

/-- The pairs (return value, errno after the call) that `TEST(chown(...))` can
deliver: chown(2) returns 0 or -1; and since errno is zeroed before the call
and set only by a call that returns -1, any other return value could only come
with errno 0. -/
def receivable (r : Int × Int) : Prop :=
  r.1 = 0 ∨ r.1 = -1 ∨ r.2 = 0

/-- The message the `if` chain of `main` records for a case, as a function of
`TEST_RETURN`, `TEST_ERRNO` and the case. -/
def verdict (TEST_RETURN TEST_ERRNO : Int) (tc : test_case_t) : Report :=
  if TEST_RETURN = 0 then
    ⟨TType.TFAIL, EFlag.plain, "chown succeeded unexpectedly", []⟩
  else if TEST_ERRNO = tc.exp_errno then
    ⟨TType.TPASS, EFlag.TTERRNO, "chown failed", []⟩
  else
    ⟨TType.TFAIL, EFlag.TTERRNO, "chown failed; expected: %d - %s",
      [Arg.int tc.exp_errno, Arg.strerror tc.exp_errno]⟩

/-- The pathname `main` passes to `chown` for a case: `get_high_address()` in
place of `high_address_node`, the `pathname` field otherwise. -/
def file_arg (env : Env) (tc : test_case_t) : Ptr :=
  if tc.pathname = Ptr.high_address_node then env.high_address else tc.pathname

/-- The state after one pass of the scenario loop body over case `tc`. -/
def after_case (env : Env) (u g : Nat) (tc : test_case_t) (w : World) : World :=
  { w with
    chown_calls := w.chown_calls ++ [⟨file_arg env tc, u, g, w.euid⟩]
    TEST_RETURN := (env.chown w.chown_calls.length).1
    TEST_ERRNO := (env.chown w.chown_calls.length).2
    log := w.log ++
      [verdict (env.chown w.chown_calls.length).1 (env.chown w.chown_calls.length).2 tc] }

/-- The states `w` and `w1` differ at most in the record of `chown` calls, the
result log, and the library globals `TEST_RETURN`, `TEST_ERRNO`, `tst_count`. -/
def SameBut (w w1 : World) : Prop :=
  w1 = { w with
    chown_calls := w1.chown_calls
    log := w1.log
    TEST_RETURN := w1.TEST_RETURN
    TEST_ERRNO := w1.TEST_ERRNO
    tst_count := w1.tst_count }

/-- A table entry used where an index is out of range. -/
def no_case : test_case_t := ⟨Ptr.addr 0, 0, none⟩

/-- The state after the first two statements of `cleanup` (the attempt to
regain the administrative identity): on success the effective user id is 0, on
failure a warning is recorded. -/
def cl_state (env : Env) (w : World) : World :=
  if env.ok Step.cl_seteuid0 then { w.did Step.cl_seteuid0 with euid := 0 }
  else (w.did Step.cl_seteuid0).report ⟨TType.TWARN, EFlag.TERRNO, "seteuid(0) failed", []⟩

/-- The call sites of the fallible steps of `setup`, `setup1`, `setup2` and
`setup3`: getpwnam, seteuid, mmap, symlink, mkdir, mount, open, fchown, close. -/
def Step.inSetup : Step → Bool
  | Step.tst_require_root => false
  | Step.tst_mkfs => false
  | Step.tst_tmpdir => false
  | Step.cl_seteuid0 => false
  | Step.cl_umount => false
  | Step.tst_rmdir => false
  | _ => true

/-- The global `mount_flag` is set exactly when the mount of `setup` was executed and
succeeded. -/
def MountInv (env : Env) (w : World) : Prop :=
  w.mount_flag ≠ 0 ↔ (Step.mount ∈ w.trace ∧ env.ok Step.mount = true)

/-- Every step of setup executed so far has succeeded. -/
def AllOk (env : Env) (w : World) : Prop :=
  ∀ s ∈ w.trace, s.inSetup = true → env.ok s = true

/-- No `chown` call was made and no pass or fail was recorded. -/
def Quiet (w : World) : Prop :=
  w.chown_calls = [] ∧ ∀ r ∈ w.log, r.ttype = TType.TBROK ∨ r.ttype = TType.TWARN

/-- What holds whenever the process ends during setup. -/
def Ex (env : Env) (w : World) : Prop :=
  Quiet w ∧ MountInv env w ∧ ((∃ r ∈ w.log, r.ttype = TType.TBROK) ∨ AllOk env w)

/-- What holds at every normal point of setup. -/
def Inv (env : Env) (w : World) : Prop :=
  w.chown_calls = [] ∧ w.log = [] ∧ AllOk env w ∧ MountInv env w

/-- The outcome satisfies `Q` when it is a normal return and `E` when the
process has ended. -/
def Post {α : Type} (r : Res α) (Q : α → World → Prop) (E : World → Prop) : Prop :=
  match r with
  | Res.ret a w => Q a w
  | Res.exit w => E w

/-- The states `w` and `w1` differ at most in the trace of executed steps and
in the contents of `Longpathname`. -/
def SetupKeeps (w w1 : World) : Prop :=
  w1 = { w with trace := w1.trace, Longpathname := w1.Longpathname }

/-- A state in which nothing has been executed or recorded yet. -/
def Fresh (w : World) : Prop :=
  w.chown_calls = [] ∧ w.log = [] ∧ w.trace = [] ∧ w.mount_flag = 0

/-- The relation between the state `w` before `setup` and the state `w1` after
a normal return of `setup`: what `setup` assigns, and nothing else but the
trace and the contents of `Longpathname`. -/
def SetupDone (env : Env) (w w1 : World) : Prop :=
  w1 = { w with
    euid := env.pw_uid
    ltpuser := some env.pw_uid
    bad_addr := Ptr.addr (env.mmap_addr : Nat)
    test_cases := set_pathname w.test_cases 3 (Ptr.addr (env.mmap_addr : Nat))
    mount_flag := 1
    trace := w1.trace
    Longpathname := w1.Longpathname }

/-- What holds of the final state of every run: a failed step of setup means
a broken run without any chown call, pass or fail; `mount_flag` tells whether
the mount succeeded; every chown call was made as the unprivileged user. -/
def Final (env : Env) (w : World) : Prop :=
  ((∃ s ∈ w.trace, s.inSetup = true ∧ env.ok s = false) →
    (∃ r ∈ w.log, r.ttype = TType.TBROK) ∧ w.chown_calls = [] ∧
    ∀ r ∈ w.log, r.ttype ≠ TType.TPASS ∧ r.ttype ≠ TType.TFAIL) ∧
  MountInv env w ∧
  ∀ c ∈ w.chown_calls, c.euid = env.pw_uid ∧ c.owner = env.pw_uid

/-- The steps of a `setup` in which everything succeeds, in execution order. -/
def setup_trace : List Step :=
  [ Step.tst_require_root, Step.tst_mkfs, Step.getpwnam, Step.seteuid_nobody, Step.tst_tmpdir,
    Step.mmap, Step.symlink1, Step.symlink2, Step.seteuid_root, Step.mkdir_mntpoint,
    Step.mount, Step.seteuid_back,
    Step.s1_open, Step.s1_seteuid0, Step.s1_fchown, Step.s1_close, Step.s1_seteuid_old,
    Step.s2_seteuid0, Step.s2_mkdir, Step.s2_open, Step.s2_close, Step.s2_seteuid_old,
    Step.s3_open, Step.s3_close ]

/-- The state after a `setup` in which everything succeeds. -/
def after_setup (env : Env) (w : World) : World :=
  { w with
    euid := env.pw_uid
    ltpuser := some env.pw_uid
    bad_addr := Ptr.addr (env.mmap_addr : Nat)
    test_cases := set_pathname w.test_cases 3 (Ptr.addr (env.mmap_addr : Nat))
    mount_flag := 1
    trace := w.trace ++ setup_trace
    Longpathname := List.replicate (env.PATH_MAX + 2) 'a' }

/-- As `env_good`, but the mount of the read-only filesystem fails. -/
def env_mount_fails : Env := { env_good with ok := fun s => s != Step.mount }

/-- As `env_good`, but no `-D device` option is given. -/
def env_no_device : Env := { env_good with dflag := 0, device := "" }

/-! ## Running programs: rewriting rules -/

@[simp] theorem run_pure {α : Type} (a : α) (w : World) :
    (pure a : M α) w = Res.ret a w := id rfl

@[simp] theorem run_Mpure {α : Type} (a : α) (w : World) :
    (M.pure a : M α) w = Res.ret a w := id rfl

@[simp] theorem run_bind {α β : Type} (m : M α) (f : α → M β) (w : World) :
    (m >>= f) w = (m w).andThen f := id rfl

@[simp] theorem run_Mbind {α β : Type} (m : M α) (f : α → M β) (w : World) :
    (M.bind m f) w = (m w).andThen f := id rfl

@[simp] theorem andThen_ret {α β : Type} (a : α) (w : World) (f : α → World → Res β) :
    (Res.ret a w).andThen f = f a w := id rfl

@[simp] theorem andThen_exit {α β : Type} (w : World) (f : α → World → Res β) :
    (Res.exit w : Res α).andThen f = Res.exit w := id rfl

@[simp] theorem andThen_ite {α β : Type} (c : Prop) [Decidable c] (x y : Res α)
    (f : α → World → Res β) :
    (if c then x else y).andThen f = if c then x.andThen f else y.andThen f := by
  split <;> rfl

@[simp] theorem run_ite {α : Type} (c : Prop) [Decidable c] (a b : M α) (w : World) :
    (if c then a else b) w = if c then a w else b w := by
  split <;> rfl

@[simp] theorem run_getW (w : World) : getW w = Res.ret w w := rfl

@[simp] theorem run_modifyW (f : World → World) (w : World) :
    modifyW f w = Res.ret () (f w) := rfl

@[simp] theorem run_tst_resm (t : TType) (f : EFlag) (fmt : String) (args : List Arg)
    (w : World) : tst_resm t f fmt args w = Res.ret () (w.report ⟨t, f, fmt, args⟩) := rfl

@[simp] theorem run_test_case (i : Nat) (w : World) (tc : test_case_t)
    (h : w.test_cases[i]? = some tc) : test_case i w = Res.ret tc w := by
  simp [test_case, h]

@[simp] theorem run_chown (env : Env) (p : Ptr) (u g : Nat) (w : World) :
    chown env p u g w = Res.ret (env.chown w.chown_calls.length)
      { w with chown_calls := w.chown_calls ++ [⟨p, u, g, w.euid⟩] } := rfl

@[simp] theorem run_get_high_address (env : Env) (w : World) :
    get_high_address env w = Res.ret env.high_address w := rfl

theorem check_result_eq (i : Nat) (w : World) (tc : test_case_t)
    (h : w.test_cases[i]? = some tc) :
    check_result i w = Res.ret () (w.report (verdict w.TEST_RETURN w.TEST_ERRNO tc)) := by
  unfold check_result verdict
  by_cases h0 : w.TEST_RETURN = 0
  · simp [h0]
  · by_cases h1 : w.TEST_ERRNO = tc.exp_errno <;> simp [h, h0, h1]

/-- One pass of the scenario loop body. -/
theorem run_case_eq (env : Env) (u g i : Nat) (w : World) (tc : test_case_t)
    (h : w.test_cases[i]? = some tc) :
    run_case env u g i w = Res.ret () (after_case env u g tc w) := by
  have hc := check_result_eq i
    { w with
      chown_calls := w.chown_calls ++ [⟨file_arg env tc, u, g, w.euid⟩]
      TEST_RETURN := (env.chown w.chown_calls.length).1
      TEST_ERRNO := (env.chown w.chown_calls.length).2 } tc h
  unfold run_case TEST_chown
  by_cases hp : tc.pathname = Ptr.high_address_node
  · simp [h, hp, file_arg] at hc ⊢
    rw [hc]
    simp [after_case, World.report, file_arg, hp]
  · simp [h, hp, file_arg] at hc ⊢
    rw [hc]
    simp [after_case, World.report, file_arg, hp]

theorem forRange_succ (n i : Nat) (body : Nat → M Unit) (w : World) :
    forRange (n + 1) i body w = (body i w).andThen (fun _ => forRange n (i + 1) body) := rfl

theorem sameBut_refl (w : World) : SameBut w w := rfl

theorem sameBut_trans {a b c : World} (h1 : SameBut a b) (h2 : SameBut b c) : SameBut a c := by
  unfold SameBut at *
  rw [h2, h1]

theorem sameBut_after_case (env : Env) (u g : Nat) (tc : test_case_t) (w : World) :
    SameBut w (after_case env u g tc w) := rfl

/-- The inner scenario loop from case `i` on, for `n` cases. -/
theorem inner_loop (env : Env) (u g : Nat) : ∀ (n i : Nat) (w : World),
    i + n ≤ w.test_cases.length →
    ∃ w1, forRange n i (run_case env u g) w = Res.ret () w1 ∧ SameBut w w1 ∧
      w1.chown_calls = w.chown_calls ++ (List.range n).map
        (fun k => ⟨file_arg env (w.test_cases.getD (i + k) no_case), u, g, w.euid⟩) ∧
      w1.log = w.log ++ (List.range n).map
        (fun k => verdict (env.chown (w.chown_calls.length + k)).1
          (env.chown (w.chown_calls.length + k)).2 (w.test_cases.getD (i + k) no_case)) := by
  intro n
  induction n with
  | zero =>
    intro i w _
    exact ⟨w, rfl, sameBut_refl w, by simp, by simp⟩
  | succ n ih =>
    intro i w hi
    have hlt : i < w.test_cases.length := by omega
    have hget : w.test_cases[i]? = some (w.test_cases[i]) := List.getElem?_eq_getElem hlt
    have hstep := run_case_eq env u g i w _ hget
    have hsb := sameBut_after_case env u g (w.test_cases[i]) w
    have htc : (after_case env u g (w.test_cases[i]) w).test_cases = w.test_cases := rfl
    have heu : (after_case env u g (w.test_cases[i]) w).euid = w.euid := rfl
    obtain ⟨w1, hrun, hsame, hcalls, hlog⟩ :=
      ih (i + 1) (after_case env u g (w.test_cases[i]) w) (by rw [htc]; omega)
    refine ⟨w1, ?_, sameBut_trans hsb hsame, ?_, ?_⟩
    · simp [forRange, hstep, hrun]
    · rw [hcalls, htc, heu, List.range_succ_eq_map]
      simp [after_case, hget, List.map_map, Function.comp_def, Nat.add_assoc, Nat.add_comm 1]
    · rw [hlog, htc, List.range_succ_eq_map]
      simp [after_case, hget, List.map_map, Function.comp_def, Nat.add_assoc, Nat.add_comm 1]

theorem sameBut_fields {w w1 : World} (h : SameBut w w1) :
    w1.euid = w.euid ∧ w1.test_cases = w.test_cases ∧ w1.trace = w.trace ∧
    w1.mount_flag = w.mount_flag ∧ w1.Longpathname = w.Longpathname ∧
    w1.bad_addr = w.bad_addr ∧ w1.crashed = w.crashed ∧ w1.ltpuser = w.ltpuser ∧
    w1.device = w.device := by
  unfold SameBut at h
  rw [h]
  simp

/-- The outer loop of `main`: `n` iterations of the inner loop. -/
theorem outer_loop (env : Env) (u g : Nat) : ∀ (n lc : Nat) (w : World),
    w.test_cases.length = 9 →
    ∃ w1, forRange n lc (fun _ => do
            modifyW (fun w => { w with tst_count := 0 })
            forLoop 0 TST_TOTAL (run_case env u g)) w = Res.ret () w1 ∧
      SameBut w w1 ∧
      w1.chown_calls = w.chown_calls ++ (List.range (n * 9)).map
        (fun k => ⟨file_arg env (w.test_cases.getD (k % 9) no_case), u, g, w.euid⟩) ∧
      w1.log = w.log ++ (List.range (n * 9)).map
        (fun k => verdict (env.chown (w.chown_calls.length + k)).1
          (env.chown (w.chown_calls.length + k)).2 (w.test_cases.getD (k % 9) no_case)) := by
  intro n
  induction n with
  | zero =>
    intro lc w _
    exact ⟨w, rfl, sameBut_refl w, by simp, by simp⟩
  | succ n ih =>
    intro lc w hlen
    obtain ⟨w1, hrun1, hsame1, hcalls1, hlog1⟩ :=
      inner_loop env u g 9 0 { w with tst_count := 0 } (by simp [hlen])
    obtain ⟨he1, ht1, -⟩ := sameBut_fields hsame1
    simp only [] at he1 ht1 hcalls1 hlog1
    have hlen1 : w1.chown_calls.length = w.chown_calls.length + 9 := by
      rw [hcalls1]; simp
    obtain ⟨w2, hrun2, hsame2, hcalls2, hlog2⟩ := ih (lc + 1) w1 (by rw [ht1]; exact hlen)
    have hsame0 : SameBut w { w with tst_count := 0 } := rfl
    refine ⟨w2, ?_, sameBut_trans (sameBut_trans hsame0 hsame1) hsame2, ?_, ?_⟩
    · have hbody : (do
            modifyW (fun w => { w with tst_count := 0 })
            forLoop 0 TST_TOTAL (run_case env u g) : M Unit) w = Res.ret () w1 := by
        simp only [run_bind, run_modifyW, andThen_ret, forLoop]
        exact hrun1
      rw [forRange_succ, hbody]
      exact hrun2
    · rw [hcalls2, hcalls1, ht1, he1, Nat.succ_mul, Nat.add_comm (n * 9) 9, List.range_add,
        List.map_append, List.map_map, List.append_assoc]
      refine congrArg (w.chown_calls ++ ·) (congrArg₂ (· ++ ·) ?_ ?_)
      · apply List.map_congr_left
        intro k hk
        have hk9 : k < 9 := List.mem_range.mp hk
        simp [Nat.mod_eq_of_lt hk9]
      · apply List.map_congr_left
        intro k _
        simp
    · rw [hlog2, hlog1, ht1, hlen1, Nat.succ_mul, Nat.add_comm (n * 9) 9, List.range_add,
        List.map_append, List.map_map, List.append_assoc]
      refine congrArg (w.log ++ ·) (congrArg₂ (· ++ ·) ?_ ?_)
      · apply List.map_congr_left
        intro k hk
        have hk9 : k < 9 := List.mem_range.mp hk
        simp [Nat.mod_eq_of_lt hk9]
      · apply List.map_congr_left
        intro k _
        simp [Nat.add_assoc]

/-! ## The claims -/

/-- C2: the scenario table has exactly nine cases, pairs each target with the
documented expected error (the fourth target is the patched bad address once
setup has stored it), every expected error is one of the eight error kinds,
and each of the eight kinds is expected by at least one case. -/
theorem C2_table :
    test_cases.length = 9 ∧ TST_TOTAL = 9 ∧
    test_cases.map (fun tc => (tc.pathname, tc.exp_errno)) =
      [ (Ptr.lit "tfile_1", EPERM), (Ptr.lit "testdir_1/tfile_2", EACCES),
        (Ptr.high_address_node, EFAULT), (Ptr.addr (-1), EFAULT),
        (Ptr.Longpathname, ENAMETOOLONG), (Ptr.lit "", ENOENT),
        (Ptr.lit "t_file/tfile_3", ENOTDIR), (Ptr.lit "test_eloop1", ELOOP),
        (Ptr.lit "mntpoint", EROFS) ] ∧
    (∀ bad_addr : Ptr, (set_pathname test_cases 3 bad_addr).map
        (fun tc => (tc.pathname, tc.exp_errno)) =
      [ (Ptr.lit "tfile_1", EPERM), (Ptr.lit "testdir_1/tfile_2", EACCES),
        (Ptr.high_address_node, EFAULT), (bad_addr, EFAULT),
        (Ptr.Longpathname, ENAMETOOLONG), (Ptr.lit "", ENOENT),
        (Ptr.lit "t_file/tfile_3", ENOTDIR), (Ptr.lit "test_eloop1", ELOOP),
        (Ptr.lit "mntpoint", EROFS) ]) ∧
    (∀ tc ∈ test_cases, tc.exp_errno ∈
      [EPERM, EACCES, EFAULT, ENAMETOOLONG, ENOTDIR, ENOENT, ELOOP, EROFS]) ∧
    (∀ e ∈ [EPERM, EACCES, EFAULT, ENAMETOOLONG, ENOTDIR, ENOENT, ELOOP, EROFS],
      ∃ tc ∈ test_cases, tc.exp_errno = e) ∧
    [EPERM, EACCES, EFAULT, ENAMETOOLONG, ENOTDIR, ENOENT, ELOOP, EROFS].Nodup := by
  refine ⟨by decide, by decide, by decide, ?_, by decide, by decide, by decide⟩
  intro bad_addr
  rfl

/-- C1: for every case of the table and every pair (return value, errno)
that chown produces, the body of the scenario loop returns and records exactly
one message: "chown succeeded unexpectedly" (a failure) exactly when the return
value is 0, a pass exactly when the return value is not 0 and errno equals the
expected errno of the case, and a failure reporting the expected errno exactly
when the return value is not 0 and errno differs; one of the three conditions
always holds. -/
theorem C1_three_outcomes (env : Env) (u g i : Nat) (w : World) (tc : test_case_t)
    (h : w.test_cases[i]? = some tc) :
    ∃ rep : Report,
      run_case env u g i w = Res.ret () (after_case env u g tc w) ∧
      (after_case env u g tc w).log = w.log ++ [rep] ∧
      (rep = ⟨TType.TFAIL, EFlag.plain, "chown succeeded unexpectedly", []⟩ ↔
        (env.chown w.chown_calls.length).1 = 0) ∧
      (rep = ⟨TType.TPASS, EFlag.TTERRNO, "chown failed", []⟩ ↔
        ((env.chown w.chown_calls.length).1 ≠ 0 ∧
          (env.chown w.chown_calls.length).2 = tc.exp_errno)) ∧
      (rep = ⟨TType.TFAIL, EFlag.TTERRNO, "chown failed; expected: %d - %s",
          [Arg.int tc.exp_errno, Arg.strerror tc.exp_errno]⟩ ↔
        ((env.chown w.chown_calls.length).1 ≠ 0 ∧
          (env.chown w.chown_calls.length).2 ≠ tc.exp_errno)) ∧
      (rep.ttype = TType.TPASS ↔
        ((env.chown w.chown_calls.length).1 ≠ 0 ∧
          (env.chown w.chown_calls.length).2 = tc.exp_errno)) ∧
      ((env.chown w.chown_calls.length).1 = 0 ∨
        ((env.chown w.chown_calls.length).1 ≠ 0 ∧
          (env.chown w.chown_calls.length).2 = tc.exp_errno) ∨
        ((env.chown w.chown_calls.length).1 ≠ 0 ∧
          (env.chown w.chown_calls.length).2 ≠ tc.exp_errno)) := by
  refine ⟨verdict (env.chown w.chown_calls.length).1 (env.chown w.chown_calls.length).2 tc,
    run_case_eq env u g i w tc h, rfl, ?_⟩
  unfold verdict
  by_cases h0 : (env.chown w.chown_calls.length).1 = 0
  · simp [h0]
  · by_cases h1 : (env.chown w.chown_calls.length).2 = tc.exp_errno <;> simp [h0, h1]

/-- C1 at the first case of the table, chown failing with EPERM: a pass. -/
theorem C1_three_outcomes_witness :
    (World.init env_good).test_cases[0]? =
      some ⟨Ptr.lit TEST_FILE1, EPERM, some SetupFn.setup1⟩ ∧
    ((run_case env_good 65534 65534 0 (World.init env_good)).world.log =
      [⟨TType.TPASS, EFlag.TTERRNO, "chown failed", []⟩]) := by
  have h : (World.init env_good).test_cases[0]? =
      some ⟨Ptr.lit TEST_FILE1, EPERM, some SetupFn.setup1⟩ := rfl
  obtain ⟨rep, hrun, hlog, -, hpass, -⟩ :=
    C1_three_outcomes env_good 65534 65534 0 (World.init env_good) _ h
  refine ⟨h, ?_⟩
  have hrep := hpass.mpr ⟨by decide, by decide⟩
  rw [hrun, Res.world, hlog, hrep]
  rfl

/-- C4: for every case of the table and every outcome that chown can
deliver, the body of the scenario loop records a pass only when chown returned
-1 and errno equals the expected errno of the case: when the return value is
-1 the message is decided by the comparison of errno with the expected errno,
and for every other return value a failure is recorded, never a pass (for the
return value 0 the message "chown succeeded unexpectedly"). -/
theorem C4_pass_only_on_failed_call (env : Env) (u g i : Nat) (w : World) (tc : test_case_t)
    (h : w.test_cases[i]? = some tc)
    (htab : w.test_cases.map (fun c => c.exp_errno) = test_cases.map (fun c => c.exp_errno))
    (hdom : receivable (env.chown w.chown_calls.length)) :
    ∃ rep : Report,
      run_case env u g i w = Res.ret () (after_case env u g tc w) ∧
      (after_case env u g tc w).log = w.log ++ [rep] ∧
      (rep.ttype = TType.TPASS ↔
        ((env.chown w.chown_calls.length).1 = -1 ∧
          (env.chown w.chown_calls.length).2 = tc.exp_errno)) ∧
      ((env.chown w.chown_calls.length).1 = -1 →
        (env.chown w.chown_calls.length).2 = tc.exp_errno →
        rep = ⟨TType.TPASS, EFlag.TTERRNO, "chown failed", []⟩) ∧
      ((env.chown w.chown_calls.length).1 = -1 →
        (env.chown w.chown_calls.length).2 ≠ tc.exp_errno →
        rep = ⟨TType.TFAIL, EFlag.TTERRNO, "chown failed; expected: %d - %s",
          [Arg.int tc.exp_errno, Arg.strerror tc.exp_errno]⟩) ∧
      ((env.chown w.chown_calls.length).1 ≠ -1 → rep.ttype = TType.TFAIL) ∧
      ((env.chown w.chown_calls.length).1 = 0 →
        rep = ⟨TType.TFAIL, EFlag.plain, "chown succeeded unexpectedly", []⟩) := by
  have hne : tc.exp_errno ≠ 0 := by
    have hmem : tc.exp_errno ∈ w.test_cases.map (fun c => c.exp_errno) :=
      List.mem_map.mpr ⟨tc, List.getElem?_mem h, rfl⟩
    rw [htab] at hmem
    have hall : ∀ e ∈ test_cases.map (fun c => c.exp_errno), e ≠ 0 := by decide
    exact hall _ hmem
  refine ⟨verdict (env.chown w.chown_calls.length).1 (env.chown w.chown_calls.length).2 tc,
    run_case_eq env u g i w tc h, rfl, ?_⟩
  unfold receivable at hdom
  unfold verdict
  by_cases h0 : (env.chown w.chown_calls.length).1 = 0
  · simp [h0]
  · by_cases h1 : (env.chown w.chown_calls.length).2 = tc.exp_errno
    · have hm : (env.chown w.chown_calls.length).1 = -1 := by
        rcases hdom with hd | hd | hd
        · exact absurd hd h0
        · exact hd
        · rw [h1] at hd
          exact absurd hd hne
      simp [h0, h1, hm]
    · simp [h0, h1]

/-- C4 at the first case of the table: chown returns -1 with errno EPERM. -/
theorem C4_pass_only_on_failed_call_witness :
    (World.init env_good).test_cases[0]? =
      some ⟨Ptr.lit TEST_FILE1, EPERM, some SetupFn.setup1⟩ ∧
    (World.init env_good).test_cases.map (fun c => c.exp_errno) =
      test_cases.map (fun c => c.exp_errno) ∧
    receivable (env_good.chown (World.init env_good).chown_calls.length) ∧
    env_good.chown 0 = (-1, EPERM) ∧
    ((run_case env_good 65534 65534 0 (World.init env_good)).world.log =
      [⟨TType.TPASS, EFlag.TTERRNO, "chown failed", []⟩]) := by
  have h : (World.init env_good).test_cases[0]? =
      some ⟨Ptr.lit TEST_FILE1, EPERM, some SetupFn.setup1⟩ := rfl
  have htab : (World.init env_good).test_cases.map (fun c => c.exp_errno) =
      test_cases.map (fun c => c.exp_errno) := rfl
  have hdom : receivable (env_good.chown (World.init env_good).chown_calls.length) :=
    Or.inr (Or.inl rfl)
  obtain ⟨rep, hrun, hlog, -, hpass, -⟩ :=
    C4_pass_only_on_failed_call env_good 65534 65534 0 (World.init env_good) _ h htab hdom
  refine ⟨h, htab, hdom, rfl, ?_⟩
  have hrep := hpass rfl rfl
  rw [hrun, Res.world, hlog, hrep]
  rfl

/-- C3: for every number of iterations and every sequence of chown outcomes,
the scenario loops of main return normally, having invoked chown once for each
case of the table in table order in every iteration and recorded exactly one
result per call; the result of the call for case i in iteration lc is the
verdict on that call's return value and errno and on the expected errno of
case i, whatever the other calls returned. -/
theorem C3_cases_independent (env : Env) (u g : Nat) (w : World)
    (hlen : w.test_cases.length = TST_TOTAL) :
    ∃ w1, test_loop env u g w = Res.ret () w1 ∧
      w1.chown_calls.length = w.chown_calls.length + env.loops * TST_TOTAL ∧
      w1.log.length = w.log.length + env.loops * TST_TOTAL ∧
      w1.chown_calls.take w.chown_calls.length = w.chown_calls ∧
      w1.log.take w.log.length = w.log ∧
      ∀ lc < env.loops, ∀ i < TST_TOTAL, ∀ tc, w.test_cases[i]? = some tc →
        w1.chown_calls[w.chown_calls.length + (lc * TST_TOTAL + i)]? =
          some ⟨file_arg env tc, u, g, w.euid⟩ ∧
        w1.log[w.log.length + (lc * TST_TOTAL + i)]? =
          some (verdict (env.chown (w.chown_calls.length + (lc * TST_TOTAL + i))).1
            (env.chown (w.chown_calls.length + (lc * TST_TOTAL + i))).2 tc) := by
  have h9 : TST_TOTAL = 9 := rfl
  rw [h9] at hlen ⊢
  obtain ⟨w1, hrun, -, hcalls, hlog⟩ := outer_loop env u g env.loops 0 w hlen
  refine ⟨w1, ?_, ?_, ?_, ?_, ?_, ?_⟩
  · unfold test_loop forLoop
    exact hrun
  · rw [hcalls]; simp
  · rw [hlog]; simp
  · rw [hcalls]; simp
  · rw [hlog]; simp
  · intro lc hlc i hi tc htc
    have hk : lc * 9 + i < env.loops * 9 := by
      have : (lc + 1) * 9 ≤ env.loops * 9 := Nat.mul_le_mul_right 9 hlc
      omega
    have hmod : (lc * 9 + i) % 9 = i := by
      rw [Nat.add_comm, Nat.add_mul_mod_self_right, Nat.mod_eq_of_lt hi]
    constructor
    · rw [hcalls, List.getElem?_append_right (Nat.le_add_right _ _), Nat.add_sub_cancel_left,
        List.getElem?_map, List.getElem?_range hk]
      simp [hmod, htc]
    · rw [hlog, List.getElem?_append_right (Nat.le_add_right _ _), Nat.add_sub_cancel_left,
        List.getElem?_map, List.getElem?_range hk]
      simp [hmod, htc]

/-- C3 at the initial table with one iteration: nine results are recorded. -/
theorem C3_cases_independent_witness :
    (World.init env_good).test_cases.length = TST_TOTAL ∧
    ∃ w1, test_loop env_good 65534 65534 (World.init env_good) = Res.ret () w1 ∧
      w1.chown_calls.length = 9 ∧ w1.log.length = 9 := by
  have h : (World.init env_good).test_cases.length = TST_TOTAL := rfl
  obtain ⟨w1, hrun, hc, hl, -⟩ := C3_cases_independent env_good 65534 65534 _ h
  exact ⟨h, w1, hrun, hc, hl⟩

theorem set_after_replicate (c a : Char) (r : List Char) : ∀ i : Nat,
    (List.replicate i a ++ c :: r).set i a = List.replicate (i + 1) a ++ r := by
  intro i
  induction i with
  | zero => rfl
  | succ i ih =>
    simp only [List.replicate_succ, List.cons_append, List.set_cons_succ, ih]

/-- The loop of `longpath_setup` from index `i` on, the first `i` elements
already written. -/
theorem longpath_loop_from (P : Nat) : ∀ (d i : Nat) (rest : List Char) (written : List Nat),
    rest.length = d → i + d = P + 2 →
    longpath_loop P i (List.replicate i 'a' ++ rest) written =
      some (List.replicate (P + 2) 'a', written ++ List.range' i d) := by
  intro d
  induction d with
  | zero =>
    intro i rest written hr hi
    have hnil : rest = [] := List.length_eq_zero.mp hr
    have hi2 : i = P + 2 := by omega
    subst hnil
    subst hi2
    rw [longpath_loop]
    simp
  | succ d ih =>
    intro i rest written hr hi
    match rest, hr with
    | c :: r, hr =>
      have hle : i ≤ P + 1 := by omega
      have hlen : i < (List.replicate i 'a' ++ c :: r).length := by simp
      rw [longpath_loop]
      simp only [hle, if_true, store, hlen, set_after_replicate]
      rw [ih (i + 1) r (written ++ [i]) (by simpa using hr) (by omega)]
      simp [List.range'_succ]

/-- C9: run on an array of PATH_MAX+2 elements, the loop of longpath_setup
ends without writing outside the array; it writes the indices
0, 1, ..., PATH_MAX+1 in this order, each inside the array, PATH_MAX+2 writes in
all; afterwards the array has PATH_MAX+2 elements, more than PATH_MAX, every
one of them at index 0 through PATH_MAX+1 is the character a, and none is NUL;
longpath_setup therefore returns with Longpathname so filled. -/
theorem C9_longpath_filled (env : Env) (w : World)
    (hlen : w.Longpathname.length = env.PATH_MAX + 2) :
    ∃ buf written,
      longpath_loop env.PATH_MAX 0 w.Longpathname [] = some (buf, written) ∧
      longpath_setup env w = Res.ret () { w with Longpathname := buf } ∧
      written = List.range (env.PATH_MAX + 2) ∧
      written.length = env.PATH_MAX + 2 ∧
      (∀ i ∈ written, i < w.Longpathname.length) ∧
      buf.length = env.PATH_MAX + 2 ∧
      env.PATH_MAX < buf.length ∧
      (∀ i, i ≤ env.PATH_MAX + 1 → buf[i]? = some 'a') ∧
      (∀ c ∈ buf, c ≠ Char.ofNat 0) := by
  have hloop := longpath_loop_from env.PATH_MAX (env.PATH_MAX + 2) 0 w.Longpathname []
    hlen (by omega)
  simp only [List.replicate_zero, List.nil_append, ← List.range_eq_range'] at hloop
  refine ⟨List.replicate (env.PATH_MAX + 2) 'a', List.range (env.PATH_MAX + 2), hloop, ?_,
    rfl, by simp, ?_, by simp, by simp, ?_, ?_⟩
  · simp [longpath_setup, hloop]
  · intro i hi
    rw [hlen]
    exact List.mem_range.mp hi
  · intro i hi
    have hlt : i < (List.replicate (env.PATH_MAX + 2) 'a').length := by simp; omega
    rw [List.getElem?_eq_getElem hlt]
    simp
  · intro c hc
    have hca : c = 'a' := (List.mem_replicate.mp hc).2
    rw [hca]
    decide

/-- C9 at the start of the program with PATH_MAX = 4096. -/
theorem C9_longpath_filled_witness :
    (World.init env_good).Longpathname.length = env_good.PATH_MAX + 2 ∧
    longpath_setup env_good (World.init env_good) =
      Res.ret () { World.init env_good with Longpathname := List.replicate 4098 'a' } := by
  have h : (World.init env_good).Longpathname.length = env_good.PATH_MAX + 2 := by
    simp [World.init]
  obtain ⟨buf, written, hloop, hret, -, -, -, hl, -, hall, -⟩ :=
    C9_longpath_filled env_good (World.init env_good) h
  refine ⟨h, ?_⟩
  have hbuf : buf = List.replicate 4098 'a' := by
    apply List.ext_getElem?
    intro i
    by_cases hi : i ≤ env_good.PATH_MAX + 1
    · rw [hall i hi]
      have hlt : i < (List.replicate 4098 'a').length := by
        simp only [List.length_replicate]
        have : env_good.PATH_MAX = 4096 := rfl
        omega
      rw [List.getElem?_eq_getElem hlt, List.getElem_replicate]
    · have hp : env_good.PATH_MAX = 4096 := rfl
      rw [List.getElem?_eq_none (by omega),
        List.getElem?_eq_none (by rw [List.length_replicate]; omega)]
  rw [hret, hbuf]

/-! ## Cleanup and setup -/

@[simp] theorem post_ret {α : Type} (a : α) (w : World) (Q : α → World → Prop)
    (E : World → Prop) : Post (Res.ret a w) Q E ↔ Q a w := Iff.rfl

@[simp] theorem post_exit {α : Type} (w : World) (Q : α → World → Prop)
    (E : World → Prop) : Post (Res.exit w : Res α) Q E ↔ E w := Iff.rfl

@[simp] theorem post_andThen {α β : Type} (r : Res α) (f : α → World → Res β)
    (Q : β → World → Prop) (E : World → Prop) :
    Post (r.andThen f) Q E ↔ Post r (fun a w => Post (f a w) Q E) E := by
  cases r <;> rfl

@[simp] theorem post_ite {α : Type} (c : Prop) [Decidable c] (x y : Res α)
    (Q : α → World → Prop) (E : World → Prop) :
    Post (if c then x else y) Q E ↔ ((c → Post x Q E) ∧ (¬c → Post y Q E)) := by
  split <;> simp [*]

theorem post_mono {α : Type} {r : Res α} {Q Q1 : α → World → Prop} {E E1 : World → Prop}
    (h : Post r Q E) (hq : ∀ a w, Q a w → Q1 a w) (he : ∀ w, E w → E1 w) :
    Post r Q1 E1 := by
  cases r with
  | ret a w => exact hq a w h
  | exit w => exact he w h

@[simp] theorem run_seteuid (env : Env) (s : Step) (uid : Nat) (w : World) :
    seteuid env s uid w =
      if env.ok s then Res.ret 0 { w.did s with euid := uid } else Res.ret (-1) (w.did s) := rfl

@[simp] theorem run_sys_call (env : Env) (s : Step) (w : World) :
    sys_call env s w = Res.ret (if env.ok s then 0 else -1) (w.did s) := rfl

@[simp] theorem run_sys_open (env : Env) (s : Step) (w : World) :
    sys_open env s w = Res.ret (if env.ok s then (env.fd : Int) else -1) (w.did s) := rfl

@[simp] theorem run_geteuid (w : World) : geteuid w = Res.ret w.euid w := rfl

@[simp] theorem run_tst_rmdir (w : World) : tst_rmdir w = Res.ret () (w.did Step.tst_rmdir) := rfl

@[simp] theorem run_tst_exit {α : Type} (w : World) : (tst_exit : M α) w = Res.exit w := rfl

@[simp] theorem run_brkm_none {α : Type} (t : TType) (f : EFlag) (fmt : String)
    (args : List Arg) (w : World) :
    (tst_brkm t f none fmt args : M α) w = Res.exit (w.report ⟨t, f, fmt, args⟩) := rfl

@[simp] theorem run_brkm_some {α : Type} (t : TType) (f : EFlag) (c : M Unit) (fmt : String)
    (args : List Arg) (w : World) :
    (tst_brkm t f (some c) fmt args : M α) w =
      Res.exit (c (w.report ⟨t, f, fmt, args⟩)).world := rfl

@[simp] theorem fd_ne_minus_one (n : Nat) : ((n : Int) = -1) ↔ False := by
  constructor
  · intro h; omega
  · intro h; exact h.elim

/-- The behaviour of `cleanup` in closed form. -/
theorem cleanup_eq (env : Env) (w : World) :
    cleanup env w =
      if w.mount_flag ≠ 0 then
        if env.ok Step.cl_umount = true then
          Res.ret () (((cl_state env w).did Step.cl_umount).did Step.tst_rmdir)
        else
          Res.exit (((cl_state env w).did Step.cl_umount).report
            ⟨TType.TBROK, EFlag.TERRNO, "umount device:%s failed", [Arg.str w.device]⟩)
      else Res.ret () ((cl_state env w).did Step.tst_rmdir) := by
  unfold cleanup cl_state TEST_CLEANUP
  by_cases h1 : env.ok Step.cl_seteuid0 = true <;>
  by_cases h2 : w.mount_flag = 0 <;>
  by_cases h3 : env.ok Step.cl_umount = true <;>
  simp [h1, h2, h3, World.did, World.report]

/-- What `cleanup` changes: it keeps the record of chown calls, the flag and
the table, only adds broken or warning results to the log, and only adds its
own steps to the trace. -/
theorem cleanup_world (env : Env) (w : World) :
    (cleanup env w).world.chown_calls = w.chown_calls ∧
    (cleanup env w).world.mount_flag = w.mount_flag ∧
    (cleanup env w).world.test_cases = w.test_cases ∧
    (∀ r ∈ w.log, r ∈ (cleanup env w).world.log) ∧
    (∀ r ∈ (cleanup env w).world.log,
      r ∈ w.log ∨ r.ttype = TType.TBROK ∨ r.ttype = TType.TWARN) ∧
    (∀ s ∈ (cleanup env w).world.trace, s ∈ w.trace ∨ s.inSetup = false) ∧
    (∀ s ∈ w.trace, s ∈ (cleanup env w).world.trace) := by
  rw [cleanup_eq]
  unfold cl_state
  by_cases h1 : env.ok Step.cl_seteuid0 = true <;>
  by_cases h2 : w.mount_flag = 0 <;>
  by_cases h3 : env.ok Step.cl_umount = true <;>
  simp [h1, h2, h3, World.did, World.report, Res.world, Step.inSetup, or_imp, forall_and] <;>
  tauto

/-- Cleanup run from a broken state leaves a state in which setup may end. -/
theorem cleanup_ex (env : Env) (w : World) (hq : Quiet w) (hm : MountInv env w)
    (hb : ∃ r ∈ w.log, r.ttype = TType.TBROK) : Ex env (cleanup env w).world := by
  obtain ⟨hc, hl⟩ := hq
  obtain ⟨r, hr, hrb⟩ := hb
  obtain ⟨fc, fm, -, flog, flog2, ftr, ftr2⟩ := cleanup_world env w
  refine ⟨⟨by rw [fc, hc], ?_⟩, ?_, Or.inl ⟨r, flog r hr, hrb⟩⟩
  · intro r1 hr1
    rcases flog2 r1 hr1 with h | h | h
    · exact hl r1 h
    · exact Or.inl h
    · exact Or.inr h
  · unfold MountInv at hm ⊢
    rw [fm, hm]
    constructor
    · rintro ⟨h1, h2⟩
      exact ⟨ftr2 _ h1, h2⟩
    · rintro ⟨h1, h2⟩
      rcases ftr _ h1 with h | h
      · exact ⟨h, h2⟩
      · simp [Step.inSetup] at h

/-- A `tst_brkm(TBROK, cleanup, ...)` during setup ends in a state in which
setup may end. -/
theorem brk_ex (env : Env) (W : World) (hc : W.chown_calls = [])
    (hl : ∀ r ∈ W.log, r.ttype = TType.TBROK) (hne : W.log ≠ []) (hm : MountInv env W) :
    Ex env (cleanup env W).world := by
  obtain ⟨r, hr⟩ := List.exists_mem_of_ne_nil _ hne
  exact cleanup_ex env W ⟨hc, fun r1 hr1 => Or.inl (hl r1 hr1)⟩ hm ⟨r, hr, hl r hr⟩

theorem post_setup3 (env : Env) (w : World) (hI : Inv env w) :
    Post (setup3 env w) (fun _ w1 => Inv env w1 ∧ w1 = { w with trace := w1.trace })
      (Ex env) := by
  obtain ⟨hc, hl, ha, hm⟩ := hI
  unfold setup3
  by_cases h1 : env.ok Step.s3_open = true
  · by_cases h2 : env.ok Step.s3_close = true
    · simp [h1, h2, World.did]
      refine ⟨hc, hl, ?_, ?_⟩
      · simpa [AllOk, or_imp, forall_and, h1, h2] using ha
      · simpa [MountInv] using hm
    · simp [h1, h2, World.did, World.report]
      exact brk_ex env _ (by simp [hc]) (by simp [hl]) (by simp) (by simpa [MountInv] using hm)
  · simp [h1, World.did, World.report]
    exact brk_ex env _ (by simp [hc]) (by simp [hl]) (by simp) (by simpa [MountInv] using hm)

theorem post_setup1 (env : Env) (w : World) (hI : Inv env w) :
    Post (setup1 env w)
      (fun _ w1 => Inv env w1 ∧ w1 = { w with trace := w1.trace } ∧
        Step.s1_seteuid0 ∈ w1.trace ∧ env.ok Step.s1_seteuid0 = true)
      (Ex env) := by
  obtain ⟨hc, hl, ha, hm⟩ := hI
  unfold setup1
  by_cases h1 : env.ok Step.s1_open = true
  · by_cases h2 : env.ok Step.s1_seteuid0 = true
    · by_cases h3 : env.ok Step.s1_fchown = true
      · by_cases h4 : env.ok Step.s1_close = true
        · by_cases h5 : env.ok Step.s1_seteuid_old = true
          · simp [h1, h2, h3, h4, h5, World.did]
            refine ⟨hc, hl, ?_, ?_⟩
            · simpa [AllOk, or_imp, forall_and, h1, h2, h3, h4, h5] using ha
            · simpa [MountInv] using hm
          · simp [h1, h2, h3, h4, h5, World.did, World.report]
            exact brk_ex env _ (by simp [hc]) (by simp [hl]) (by simp)
              (by simpa [MountInv] using hm)
        · simp [h1, h2, h3, h4, World.did, World.report]
          exact brk_ex env _ (by simp [hc]) (by simp [hl]) (by simp)
            (by simpa [MountInv] using hm)
      · simp [h1, h2, h3, World.did, World.report]
        exact brk_ex env _ (by simp [hc]) (by simp [hl]) (by simp)
          (by simpa [MountInv] using hm)
    · simp [h1, h2, World.did, World.report]
      exact brk_ex env _ (by simp [hc]) (by simp [hl]) (by simp) (by simpa [MountInv] using hm)
  · simp [h1, World.did, World.report]
    exact brk_ex env _ (by simp [hc]) (by simp [hl]) (by simp) (by simpa [MountInv] using hm)

theorem post_setup2 (env : Env) (w : World) (hI : Inv env w) :
    Post (setup2 env w)
      (fun _ w1 => Inv env w1 ∧ w1 = { w with trace := w1.trace } ∧
        Step.s2_seteuid0 ∈ w1.trace ∧ env.ok Step.s2_seteuid0 = true)
      (Ex env) := by
  obtain ⟨hc, hl, ha, hm⟩ := hI
  unfold setup2
  by_cases h1 : env.ok Step.s2_seteuid0 = true
  · by_cases h2 : env.ok Step.s2_mkdir = true
    · by_cases h3 : env.ok Step.s2_open = true
      · by_cases h4 : env.ok Step.s2_close = true
        · by_cases h5 : env.ok Step.s2_seteuid_old = true
          · simp [h1, h2, h3, h4, h5, World.did]
            refine ⟨hc, hl, ?_, ?_⟩
            · simpa [AllOk, or_imp, forall_and, h1, h2, h3, h4, h5] using ha
            · simpa [MountInv] using hm
          · simp [h1, h2, h3, h4, h5, World.did, World.report]
            exact brk_ex env _ (by simp [hc]) (by simp [hl]) (by simp)
              (by simpa [MountInv] using hm)
        · simp [h1, h2, h3, h4, World.did, World.report]
          exact brk_ex env _ (by simp [hc]) (by simp [hl]) (by simp)
            (by simpa [MountInv] using hm)
      · simp [h1, h2, h3, World.did, World.report]
        exact brk_ex env _ (by simp [hc]) (by simp [hl]) (by simp)
          (by simpa [MountInv] using hm)
    · simp [h1, h2, World.did, World.report]
      exact brk_ex env _ (by simp [hc]) (by simp [hl]) (by simp) (by simpa [MountInv] using hm)
  · simp [h1, World.did, World.report]
    exact brk_ex env _ (by simp [hc]) (by simp [hl]) (by simp) (by simpa [MountInv] using hm)

theorem setupKeeps_trans {a b c : World} (h1 : SetupKeeps a b) (h2 : SetupKeeps b c) :
    SetupKeeps a c := by
  unfold SetupKeeps at *
  rw [h2, h1]

theorem setupKeeps_of_trace {w w1 : World} (h : w1 = { w with trace := w1.trace }) :
    SetupKeeps w w1 := by
  unfold SetupKeeps
  rw [h]

theorem post_longpath_setup (env : Env) (w : World) (hI : Inv env w) :
    Post (longpath_setup env w) (fun _ w1 => Inv env w1 ∧ SetupKeeps w w1) (Ex env) := by
  obtain ⟨hc, hl, ha, hm⟩ := hI
  unfold longpath_setup
  cases longpath_loop env.PATH_MAX 0 w.Longpathname [] with
  | some r => exact ⟨⟨hc, hl, ha, hm⟩, rfl⟩
  | none => exact ⟨⟨hc, by simp [fault, hl]⟩, hm, Or.inr ha⟩

theorem setup_case_eq (env : Env) (i : Nat) (w : World) :
    setup_case env i w =
      match w.test_cases[i]? with
      | none => fault w
      | some tc =>
        match tc.setupfunc with
        | none => Res.ret () w
        | some f => call_setupfunc env f w := by
  cases h : w.test_cases[i]? with
  | none => simp [setup_case, test_case, h, fault]
  | some tc =>
    simp only [setup_case, test_case, h, run_bind, andThen_ret]
    cases hf : tc.setupfunc <;> simp [hf]

theorem post_setup_case (env : Env) (i : Nat) (w : World) (hI : Inv env w) :
    Post (setup_case env i w) (fun _ w1 => Inv env w1 ∧ SetupKeeps w w1) (Ex env) := by
  rw [setup_case_eq]
  cases h : w.test_cases[i]? with
  | none =>
    obtain ⟨hc, hl, ha, hm⟩ := hI
    show Ex env { w with crashed := true }
    exact ⟨⟨hc, by simp [hl]⟩, hm, Or.inr ha⟩
  | some tc =>
    dsimp only
    cases hf : tc.setupfunc with
    | none =>
      show Inv env w ∧ SetupKeeps w w
      exact ⟨hI, rfl⟩
    | some f =>
      dsimp only
      cases f with
      | setup1 =>
        exact post_mono (post_setup1 env w hI)
          (fun _ w1 hq => ⟨hq.1, setupKeeps_of_trace hq.2.1⟩) (fun _ he => he)
      | setup2 =>
        exact post_mono (post_setup2 env w hI)
          (fun _ w1 hq => ⟨hq.1, setupKeeps_of_trace hq.2.1⟩) (fun _ he => he)
      | setup3 =>
        exact post_mono (post_setup3 env w hI)
          (fun _ w1 hq => ⟨hq.1, setupKeeps_of_trace hq.2⟩) (fun _ he => he)
      | longpath_setup => exact post_longpath_setup env w hI

/-- The last loop of `setup`. -/
theorem post_setup_loop (env : Env) : ∀ (n i : Nat) (w : World), Inv env w →
    Post (forRange n i (setup_case env) w) (fun _ w1 => Inv env w1 ∧ SetupKeeps w w1)
      (Ex env) := by
  intro n
  induction n with
  | zero =>
    intro i w hI
    exact ⟨hI, rfl⟩
  | succ n ih =>
    intro i w hI
    rw [forRange_succ, post_andThen]
    refine post_mono (post_setup_case env i w hI) ?_ (fun _ he => he)
    intro _ w1 hq
    exact post_mono (ih (i + 1) w1 hq.1)
      (fun _ w2 hq2 => ⟨hq2.1, setupKeeps_trans hq.2 hq2.2⟩) (fun _ he => he)

theorem post_setup (env : Env) (w : World) (hF : Fresh w) :
    Post (setup env w) (fun _ w1 => Inv env w1 ∧ SetupDone env w w1) (Ex env) := by
  obtain ⟨hc, hl, ht, hmf⟩ := hF
  unfold setup
  by_cases h1 : env.ok Step.tst_require_root = true
  · by_cases h2 : env.ok Step.tst_mkfs = true
    · by_cases h3 : env.ok Step.getpwnam = true
      · by_cases h4 : env.ok Step.seteuid_nobody = true
        · by_cases h5 : env.ok Step.tst_tmpdir = true
          · by_cases h6 : env.ok Step.mmap = true
            · by_cases h7 : env.ok Step.symlink1 = true
              · by_cases h8 : env.ok Step.symlink2 = true
                · by_cases h9 : env.ok Step.seteuid_root = true
                  · by_cases h10 : env.ok Step.mkdir_mntpoint = true
                    · by_cases h11 : env.ok Step.mount = true
                      · by_cases h12 : env.ok Step.seteuid_back = true
                        · simp [h1, h2, h3, h4, h5, h6, h7, h8, h9, h10, h11, h12, World.did,
                            World.report, tst_helper, tst_sig,
                          getpwnam, pw_uid, TEST_PAUSE, mmap, MAP_FAILED, SAFE_CALL, SAFE_SETEUID]
                          refine post_mono (post_setup_loop env _ _ _ ⟨hc, hl, ?_, ?_⟩) ?_
                            (fun _ he => he)
                          · simp [AllOk, ht, h1, h2, h3, h4, h5, h6, h7, h8, h9, h10, h11, h12]
                          · simp [MountInv, ht, h11]
                          · intro _ w1 hq
                            exact ⟨hq.1, hq.2⟩
                        · simp [h1, h2, h3, h4, h5, h6, h7, h8, h9, h10, h11, h12, World.did,
                            World.report, tst_helper, tst_sig,
                          getpwnam, pw_uid, TEST_PAUSE, mmap, MAP_FAILED, SAFE_CALL, SAFE_SETEUID]
                          exact brk_ex env _ (by simp [hc]) (by simp [hl]) (by simp)
                            (by simp [MountInv, ht, hmf, h11])
                      · simp [h1, h2, h3, h4, h5, h6, h7, h8, h9, h10, h11, World.did,
                          World.report, tst_helper, tst_sig,
                        getpwnam, pw_uid, TEST_PAUSE, mmap, MAP_FAILED, SAFE_CALL, SAFE_SETEUID]
                        exact brk_ex env _ (by simp [hc]) (by simp [hl]) (by simp)
                          (by simp [MountInv, ht, hmf, h11])
                    · simp [h1, h2, h3, h4, h5, h6, h7, h8, h9, h10, World.did, World.report,
                        tst_helper, tst_sig,
                      getpwnam, pw_uid, TEST_PAUSE, mmap, MAP_FAILED, SAFE_CALL, SAFE_SETEUID]
                      exact brk_ex env _ (by simp [hc]) (by simp [hl]) (by simp)
                        (by simp [MountInv, ht, hmf])
                  · simp [h1, h2, h3, h4, h5, h6, h7, h8, h9, World.did, World.report,
                      tst_helper, tst_sig,
                    getpwnam, pw_uid, TEST_PAUSE, mmap, MAP_FAILED, SAFE_CALL, SAFE_SETEUID]
                    exact brk_ex env _ (by simp [hc]) (by simp [hl]) (by simp)
                      (by simp [MountInv, ht, hmf])
                · simp [h1, h2, h3, h4, h5, h6, h7, h8, World.did, World.report, tst_helper,
                    tst_sig,
                  getpwnam, pw_uid, TEST_PAUSE, mmap, MAP_FAILED, SAFE_CALL, SAFE_SETEUID]
                  exact brk_ex env _ (by simp [hc]) (by simp [hl]) (by simp)
                    (by simp [MountInv, ht, hmf])
              · simp [h1, h2, h3, h4, h5, h6, h7, World.did, World.report, tst_helper, tst_sig,
                  getpwnam, pw_uid, TEST_PAUSE, mmap, MAP_FAILED, SAFE_CALL]
                exact brk_ex env _ (by simp [hc]) (by simp [hl]) (by simp)
                  (by simp [MountInv, ht, hmf])
            · simp [h1, h2, h3, h4, h5, h6, World.did, World.report, tst_helper, tst_sig,
                getpwnam, pw_uid, TEST_PAUSE, mmap, MAP_FAILED]
              exact brk_ex env _ (by simp [hc]) (by simp [hl]) (by simp)
                (by simp [MountInv, ht, hmf])
          · simp [h1, h2, h3, h4, h5, World.did, World.report, tst_helper, tst_sig,
              getpwnam, pw_uid, TEST_PAUSE]
            exact ⟨⟨by simp [hc], by simp [hl]⟩, by simp [MountInv, ht, hmf],
              Or.inl (by simp [hl])⟩
        · simp [h1, h2, h3, h4, World.did, World.report, tst_helper, tst_sig, getpwnam, pw_uid]
          exact ⟨⟨by simp [hc], by simp [hl]⟩, by simp [MountInv, ht, hmf],
            Or.inl (by simp [hl])⟩
      · simp [h1, h2, h3, World.did, World.report, tst_helper, tst_sig, getpwnam]
        exact ⟨⟨by simp [hc], by simp [hl]⟩, by simp [MountInv, ht, hmf],
          Or.inl (by simp [hl])⟩
    · simp [h1, h2, World.did, World.report, tst_helper]
      exact ⟨⟨by simp [hc], by simp [hl]⟩, by simp [MountInv, ht, hmf],
        Or.inl (by simp [hl])⟩
  · simp [h1, World.did, World.report, tst_helper]
    exact ⟨⟨by simp [hc], by simp [hl]⟩, by simp [MountInv, ht, hmf],
      Or.inl (by simp [hl])⟩

theorem final_of_ex (env : Env) (w : World) (h : Ex env w) : Final env w := by
  obtain ⟨⟨hc, hl⟩, hm, hb⟩ := h
  refine ⟨?_, hm, by simp [hc]⟩
  rintro ⟨s, hs, hin, hok⟩
  refine ⟨?_, hc, ?_⟩
  · rcases hb with hb | ha
    · exact hb
    · have := ha s hs hin
      rw [hok] at this
      exact absurd this (by decide)
  · intro r hr
    rcases hl r hr with h | h <;> simp [h]

theorem world_of_post {α : Type} {r : Res α} {P : World → Prop}
    (h : Post r (fun _ w => P w) P) : P r.world := by
  cases r <;> exact h

theorem post_of_world {α : Type} {r : Res α} {P : World → Prop}
    (h : P r.world) : Post r (fun _ w => P w) P := by
  cases r <;> exact h

/-- The part of `main` after a normal return of `setup`. -/
theorem final_after_setup (env : Env) (w1 : World) (hI : Inv env w1)
    (he : w1.euid = env.pw_uid) (hlen : w1.test_cases.length = 9) :
    ∃ w2, test_loop env w1.euid env.egid w1 = Res.ret () w2 ∧ SameBut w1 w2 ∧
      Final env (cleanup env w2).world := by
  obtain ⟨hc, hl, ha, hm⟩ := hI
  obtain ⟨w2, hrun, hsame, hcalls, hlog⟩ := outer_loop env w1.euid env.egid env.loops 0 w1 hlen
  refine ⟨w2, hrun, hsame, ?_⟩
  obtain ⟨fe, -, ft, fmf, -⟩ := sameBut_fields hsame
  obtain ⟨cc, cm, -, -, -, ctr, ctr2⟩ := cleanup_world env w2
  refine ⟨?_, ?_, ?_⟩
  · rintro ⟨s, hs, hin, hok⟩
    exfalso
    rcases ctr s hs with h | h
    · rw [ft] at h
      have := ha s h hin
      rw [hok] at this
      exact absurd this (by decide)
    · rw [hin] at h
      exact absurd h (by decide)
  · unfold MountInv at hm ⊢
    rw [cm, fmf, hm]
    constructor
    · rintro ⟨h1, h2⟩
      exact ⟨ctr2 _ (by rw [ft]; exact h1), h2⟩
    · rintro ⟨h1, h2⟩
      rcases ctr _ h1 with h | h
      · rw [ft] at h
        exact ⟨h, h2⟩
      · simp [Step.inSetup] at h
  · intro c hcm
    rw [cc, hcalls, hc] at hcm
    simp only [List.nil_append, List.mem_map] at hcm
    obtain ⟨k, -, hk⟩ := hcm
    rw [← hk]
    exact ⟨he, he⟩

/-- Every run of the program ends in a state that satisfies `Final`. -/
theorem run_final (env : Env) : Final env (run env) := by
  unfold run
  apply world_of_post
  unfold main
  cases hmsg : env.parse_msg with
  | some msg =>
    simp [parse_opts, hmsg]
    exact final_of_ex env _
      ⟨⟨by simp [World.report, World.init], by simp [World.report, World.init]⟩,
        by simp [MountInv, World.report, World.init],
        Or.inl (by simp [World.report, World.init])⟩
  | none =>
    by_cases hd : env.dflag = 0
    · simp [parse_opts, hmsg, hd]
      exact final_of_ex env _
        ⟨⟨by simp [World.report, World.init], by simp [World.report, World.init]⟩,
          by simp [MountInv, World.report, World.init],
          Or.inl (by simp [World.report, World.init])⟩
    · simp only [parse_opts, hmsg, hd, run_bind, andThen_ret, run_getW, bne_self_eq_false,
        Bool.false_eq_true, if_false, run_ite, run_pure, beq_iff_eq, post_andThen]
      refine post_mono (post_setup env _ ⟨rfl, rfl, rfl, rfl⟩) ?_
        (fun w he => final_of_ex env w he)
      intro _ w1 hq
      obtain ⟨hI, hdone⟩ := hq
      have heu : w1.euid = env.pw_uid := by rw [hdone]
      have hlen : w1.test_cases.length = 9 := by rw [hdone]; rfl
      obtain ⟨w2, hrun, -, hfin⟩ := final_after_setup env w1 hI heu hlen
      simp only [TEST_EXP_ENOS, run_Mpure, post_ret, run_geteuid, getegid, hrun, run_tst_exit,
        post_exit]
      exact post_of_world hfin

/-! ## Runs in which every step succeeds -/

theorem longpath_setup_eq (env : Env) (w : World)
    (hlen : w.Longpathname.length = env.PATH_MAX + 2) :
    longpath_setup env w =
      Res.ret () { w with Longpathname := List.replicate (env.PATH_MAX + 2) 'a' } := by
  have hloop := longpath_loop_from env.PATH_MAX (env.PATH_MAX + 2) 0 w.Longpathname []
    hlen (by omega)
  simp only [List.replicate_zero, List.nil_append] at hloop
  simp [longpath_setup, hloop]

theorem setup1_ok (env : Env) (hok : ∀ s, env.ok s = true) (w : World) :
    setup1 env w = Res.ret () { w with trace := w.trace ++
      [Step.s1_open, Step.s1_seteuid0, Step.s1_fchown, Step.s1_close, Step.s1_seteuid_old] } := by
  simp [setup1, hok, World.did]

theorem setup2_ok (env : Env) (hok : ∀ s, env.ok s = true) (w : World) :
    setup2 env w = Res.ret () { w with trace := w.trace ++
      [Step.s2_seteuid0, Step.s2_mkdir, Step.s2_open, Step.s2_close, Step.s2_seteuid_old] } := by
  simp [setup2, hok, World.did]

theorem setup3_ok (env : Env) (hok : ∀ s, env.ok s = true) (w : World) :
    setup3 env w = Res.ret () { w with trace := w.trace ++ [Step.s3_open, Step.s3_close] } := by
  simp [setup3, hok, World.did]

/-- When every step succeeds, `setup` returns normally. -/
theorem setup_ok (env : Env) (hok : ∀ s, env.ok s = true) (w : World)
    (htab : w.test_cases = test_cases) (hlen : w.Longpathname.length = env.PATH_MAX + 2) :
    setup env w = Res.ret () (after_setup env w) := by
  simp [setup, hok, World.did, tst_helper, tst_sig, getpwnam, pw_uid, TEST_PAUSE, mmap,
    MAP_FAILED, SAFE_CALL, SAFE_SETEUID, forLoop, TST_TOTAL, forRange, setup_case_eq, htab,
    set_pathname, test_cases, call_setupfunc, setup1_ok, setup2_ok, setup3_ok,
    longpath_setup_eq, hlen, after_setup, setup_trace]

theorem andThen_tst_exit (r : Res Unit) :
    r.andThen (fun _ => (tst_exit : M Unit)) = Res.exit r.world := by
  cases r <;> rfl

/-- The shape of `main` once the options are accepted. -/
theorem main_eq (env : Env) (w : World) (hmsg : env.parse_msg = none) (hd : env.dflag ≠ 0) :
    main env w =
      (setup env { w with dflag := env.dflag, device := env.device, fstype := env.fstype }).andThen
        (fun _ w1 => (test_loop env w1.euid env.egid w1).andThen
          (fun _ w2 => Res.exit (cleanup env w2).world)) := by
  unfold main
  simp only [parse_opts, hmsg, hd, run_bind, andThen_ret, run_getW, bne_self_eq_false,
    Bool.false_eq_true, if_false, run_ite, run_pure, beq_iff_eq]
  congr 1
  funext _ w1
  simp only [TEST_EXP_ENOS, getegid, run_bind, run_Mpure, andThen_ret, run_geteuid]
  congr 1
  funext _ w2
  simp only [run_bind, run_tst_exit]
  cases cleanup env w2 <;> rfl

/-- A run in which every step succeeds: setup returns, the loops run, and the
process ends after cleanup. -/
theorem run_ok (env : Env) (hok : ∀ s, env.ok s = true) (hmsg : env.parse_msg = none)
    (hd : env.dflag ≠ 0) :
    ∃ w2, test_loop env env.pw_uid env.egid
        (after_setup env { World.init env with
          dflag := env.dflag, device := env.device, fstype := env.fstype }) = Res.ret () w2 ∧
      run env = (cleanup env w2).world ∧
      (run env).chown_calls.length = env.loops * 9 := by
  obtain ⟨w2, hrun, -, hcalls, -⟩ := outer_loop env env.pw_uid env.egid env.loops 0
    (after_setup env { World.init env with
      dflag := env.dflag, device := env.device, fstype := env.fstype }) rfl
  have hrun2 : test_loop env env.pw_uid env.egid
      (after_setup env { World.init env with
        dflag := env.dflag, device := env.device, fstype := env.fstype }) = Res.ret () w2 := hrun
  have hrunw : run env = (cleanup env w2).world := by
    unfold run
    rw [main_eq env _ hmsg hd, setup_ok env hok _ rfl (by simp [World.init])]
    simp only [andThen_ret]
    have he : (after_setup env { World.init env with
        dflag := env.dflag, device := env.device, fstype := env.fstype }).euid = env.pw_uid := rfl
    rw [he, hrun2]
    rfl
  refine ⟨w2, hrun2, hrunw, ?_⟩
  rw [hrunw, (cleanup_world env w2).1, hcalls]
  simp [after_setup, World.init]

/-- A normal return of `setup1`: every step succeeded, and only the trace changed. -/
theorem setup1_ret (env : Env) (w w1 : World) (h : setup1 env w = Res.ret () w1) :
    w1 = { w with trace := w.trace ++
      [Step.s1_open, Step.s1_seteuid0, Step.s1_fchown, Step.s1_close, Step.s1_seteuid_old] } ∧
    env.ok Step.s1_seteuid0 = true := by
  by_cases h1 : env.ok Step.s1_open = true
  · by_cases h2 : env.ok Step.s1_seteuid0 = true
    · by_cases h3 : env.ok Step.s1_fchown = true
      · by_cases h4 : env.ok Step.s1_close = true
        · by_cases h5 : env.ok Step.s1_seteuid_old = true
          · simp [setup1, h1, h2, h3, h4, h5, World.did] at h
            exact ⟨h.symm, h2⟩
          · simp [setup1, h1, h2, h3, h4, h5, World.did, World.report] at h
        · simp [setup1, h1, h2, h3, h4, World.did, World.report] at h
      · simp [setup1, h1, h2, h3, World.did, World.report] at h
    · simp [setup1, h1, h2, World.did, World.report] at h
  · simp [setup1, h1, World.did, World.report] at h

/-- A normal return of `setup2`: every step succeeded, and only the trace changed. -/
theorem setup2_ret (env : Env) (w w1 : World) (h : setup2 env w = Res.ret () w1) :
    w1 = { w with trace := w.trace ++
      [Step.s2_seteuid0, Step.s2_mkdir, Step.s2_open, Step.s2_close, Step.s2_seteuid_old] } ∧
    env.ok Step.s2_seteuid0 = true := by
  by_cases h1 : env.ok Step.s2_seteuid0 = true
  · by_cases h2 : env.ok Step.s2_mkdir = true
    · by_cases h3 : env.ok Step.s2_open = true
      · by_cases h4 : env.ok Step.s2_close = true
        · by_cases h5 : env.ok Step.s2_seteuid_old = true
          · simp [setup2, h1, h2, h3, h4, h5, World.did] at h
            exact ⟨h.symm, h1⟩
          · simp [setup2, h1, h2, h3, h4, h5, World.did, World.report] at h
        · simp [setup2, h1, h2, h3, h4, World.did, World.report] at h
      · simp [setup2, h1, h2, h3, World.did, World.report] at h
    · simp [setup2, h1, h2, World.did, World.report] at h
  · simp [setup2, h1, World.did, World.report] at h

/-- The state in which `setup1` and `setup2` run `seteuid(0)`: afterwards the
effective user id is 0. -/
theorem seteuid0_sets_root (env : Env) (s : Step) (w : World) (h : env.ok s = true) :
    seteuid env s 0 w = Res.ret 0 { w.did s with euid := 0 } := by
  simp [h]

/-- What a normal return of `setup` from a fresh state establishes. -/
theorem setup_ret (env : Env) (w w1 : World) (hF : Fresh w)
    (h : setup env w = Res.ret () w1) : Inv env w1 ∧ SetupDone env w w1 := by
  have hp := post_setup env w hF
  rw [h] at hp
  exact hp

/-! ## The remaining claims -/

set_option maxHeartbeats 4000000 in
/-- Every fallible step of setup and of the builders is executed when it is
the first step to fail: in a run whose options are accepted and in which every
other step succeeds, the step appears in the trace. -/
theorem setup_step_reached (env : Env) (s : Step) (hin : s.inSetup = true)
    (hfail : env.ok s = false) (hothers : ∀ t, t ≠ s → env.ok t = true)
    (hmsg : env.parse_msg = none) (hd : env.dflag ≠ 0) : s ∈ (run env).trace := by
  have hrun : run env = (main env (World.init env)).world := rfl
  rw [hrun, main_eq env _ hmsg hd]
  cases s <;> first
    | exact absurd hin (by decide)
    | simp [setup, World.did, World.report, tst_helper, tst_sig, getpwnam, pw_uid, TEST_PAUSE,
        mmap, MAP_FAILED, SAFE_CALL, SAFE_SETEUID, forLoop, TST_TOTAL, forRange, setup_case_eq,
        set_pathname, test_cases, call_setupfunc, setup1, setup2, setup3, longpath_setup_eq,
        World.init, cleanup_eq, cl_state, Res.world, hothers, hfail]

/-- C5: for every fallible step of setup and of the builders setup1, setup2,
setup3 (getpwnam, seteuid, mmap, symlink, mkdir, mount, open, fchown, close)
that fails: in every run in which the step is executed, the run records a
broken (TBROK) result, chown is never invoked, and no pass or fail result is
recorded; and the step is executed in every run whose options are accepted and
in which every other step succeeds. -/
theorem C5_setup_failure_is_broken (env : Env) (s : Step) (hin : s.inSetup = true)
    (hfail : env.ok s = false) :
    (s ∈ (run env).trace →
      (∃ r ∈ (run env).log, r.ttype = TType.TBROK) ∧
      (run env).chown_calls = [] ∧
      (∀ r ∈ (run env).log, r.ttype ≠ TType.TPASS ∧ r.ttype ≠ TType.TFAIL)) ∧
    ((∀ t, t ≠ s → env.ok t = true) → env.parse_msg = none → env.dflag ≠ 0 →
      s ∈ (run env).trace) :=
  ⟨fun hexec => (run_final env).1 ⟨s, hexec, hin, hfail⟩,
    fun hothers hmsg hd => setup_step_reached env s hin hfail hothers hmsg hd⟩

/-- C5 at a run in which the mount fails. -/
theorem C5_setup_failure_is_broken_witness :
    Step.mount.inSetup = true ∧ env_mount_fails.ok Step.mount = false ∧
    Step.mount ∈ (run env_mount_fails).trace ∧
    (∃ r ∈ (run env_mount_fails).log, r.ttype = TType.TBROK) ∧
    (run env_mount_fails).chown_calls = [] ∧
    (∀ r ∈ (run env_mount_fails).log, r.ttype ≠ TType.TPASS ∧ r.ttype ≠ TType.TFAIL) := by
  have h1 : Step.mount.inSetup = true := rfl
  have h2 : env_mount_fails.ok Step.mount = false := rfl
  obtain ⟨hbroken, hreach⟩ := C5_setup_failure_is_broken env_mount_fails Step.mount h1 h2
  have h3 : Step.mount ∈ (run env_mount_fails).trace :=
    hreach (by intro t ht; cases t <;> first | rfl | exact absurd rfl ht) rfl (by decide)
  exact ⟨h1, h2, h3, hbroken h3⟩

/-- C6: whenever setup1 or setup2 returns normally, the effective user id is
the one at entry, although the builder's seteuid(0) was executed and succeeded
(which sets it to 0) in between; whenever setup, started in a fresh state,
returns normally, the effective user id is the uid of the unprivileged user;
and in every run each chown call is made with that effective user id and with
that uid as its owner argument.  When every step succeeds, setup1, setup2 and
setup do return normally and the run makes nine chown calls per iteration. -/
theorem C6_no_privilege_leak (env : Env) :
    (∀ w w1, setup1 env w = Res.ret () w1 →
      w1.euid = w.euid ∧ Step.s1_seteuid0 ∈ w1.trace ∧
      ∀ v, seteuid env Step.s1_seteuid0 0 v =
        Res.ret 0 { v.did Step.s1_seteuid0 with euid := 0 }) ∧
    (∀ w w1, setup2 env w = Res.ret () w1 →
      w1.euid = w.euid ∧ Step.s2_seteuid0 ∈ w1.trace ∧
      ∀ v, seteuid env Step.s2_seteuid0 0 v =
        Res.ret 0 { v.did Step.s2_seteuid0 with euid := 0 }) ∧
    (∀ w w1, Fresh w → setup env w = Res.ret () w1 →
      w1.euid = env.pw_uid ∧ w1.ltpuser = some env.pw_uid) ∧
    (∀ c ∈ (run env).chown_calls, c.euid = env.pw_uid ∧ c.owner = env.pw_uid) ∧
    ((∀ s, env.ok s = true) →
      (∀ w, ∃ w1, setup1 env w = Res.ret () w1) ∧
      (∀ w, ∃ w1, setup2 env w = Res.ret () w1) ∧
      (∀ w, w.test_cases = test_cases → w.Longpathname.length = env.PATH_MAX + 2 →
        ∃ w1, setup env w = Res.ret () w1) ∧
      (env.parse_msg = none → env.dflag ≠ 0 →
        (run env).chown_calls.length = env.loops * 9)) := by
  refine ⟨?_, ?_, ?_, (run_final env).2.2, ?_⟩
  · intro w w1 h
    obtain ⟨hw, hok⟩ := setup1_ret env w w1 h
    refine ⟨by rw [hw], by rw [hw]; simp, fun v => seteuid0_sets_root env _ v hok⟩
  · intro w w1 h
    obtain ⟨hw, hok⟩ := setup2_ret env w w1 h
    refine ⟨by rw [hw], by rw [hw]; simp, fun v => seteuid0_sets_root env _ v hok⟩
  · intro w w1 hF h
    obtain ⟨-, hdone⟩ := setup_ret env w w1 hF h
    unfold SetupDone at hdone
    exact ⟨by rw [hdone], by rw [hdone]⟩
  · intro hok
    refine ⟨fun w => ⟨_, setup1_ok env hok w⟩, fun w => ⟨_, setup2_ok env hok w⟩,
      fun w htab hlen => ⟨_, setup_ok env hok w htab hlen⟩, ?_⟩
    intro hmsg hd
    obtain ⟨w2, -, -, hlen⟩ := run_ok env hok hmsg hd
    exact hlen

/-- C7: cleanup always reaches the unmount step, whether its seteuid(0)
succeeds (the effective user id becomes 0) or fails (only a warning is
recorded); umount is attempted if and only if mount_flag is set; when
mount_flag is not set, or the umount succeeds, cleanup removes the scratch
directory and returns; when the umount fails the run ends with a broken
(TBROK) result; and at the end of every run mount_flag is set if and only if
the mount of setup was executed and succeeded. -/
theorem C7_cleanup_unmounts_what_was_mounted (env : Env) (w : World) :
    (env.ok Step.cl_seteuid0 = true →
      cl_state env w = { w.did Step.cl_seteuid0 with euid := 0 }) ∧
    (env.ok Step.cl_seteuid0 = false →
      cl_state env w = (w.did Step.cl_seteuid0).report
        ⟨TType.TWARN, EFlag.TERRNO, "seteuid(0) failed", []⟩) ∧
    (w.mount_flag = 0 →
      cleanup env w = Res.ret () ((cl_state env w).did Step.tst_rmdir)) ∧
    (w.mount_flag ≠ 0 → env.ok Step.cl_umount = true →
      cleanup env w = Res.ret () (((cl_state env w).did Step.cl_umount).did Step.tst_rmdir)) ∧
    (w.mount_flag ≠ 0 → env.ok Step.cl_umount = false →
      cleanup env w = Res.exit (((cl_state env w).did Step.cl_umount).report
        ⟨TType.TBROK, EFlag.TERRNO, "umount device:%s failed", [Arg.str w.device]⟩)) ∧
    (Step.cl_umount ∉ w.trace →
      (Step.cl_umount ∈ (cleanup env w).world.trace ↔ w.mount_flag ≠ 0)) ∧
    ((run env).mount_flag ≠ 0 ↔
      (Step.mount ∈ (run env).trace ∧ env.ok Step.mount = true)) := by
  refine ⟨?_, ?_, ?_, ?_, ?_, ?_, (run_final env).2.1⟩
  · intro h
    simp [cl_state, h]
  · intro h
    simp [cl_state, h]
  · intro h
    rw [cleanup_eq]
    simp [h]
  · intro h1 h2
    rw [cleanup_eq]
    simp [h1, h2]
  · intro h1 h2
    rw [cleanup_eq]
    simp [h1, h2]
  · intro hn
    rw [cleanup_eq]
    unfold cl_state
    by_cases h1 : env.ok Step.cl_seteuid0 = true <;>
    by_cases h2 : w.mount_flag = 0 <;>
    by_cases h3 : env.ok Step.cl_umount = true <;>
    simp [h1, h2, h3, World.did, World.report, Res.world, hn]

/-- C8: when option parsing reports an error, or succeeds without a device
option (dflag is 0), main ends the process with a single broken (TBROK)
result before setup is called: no step of setup or cleanup is executed and no
chown call is made. -/
theorem C8_device_required (env : Env) (h : env.parse_msg ≠ none ∨ env.dflag = 0) :
    ∃ r : Report,
      main env (World.init env) = Res.exit
        ({ World.init env with
            dflag := env.dflag, device := env.device, fstype := env.fstype }.report r) ∧
      r.ttype = TType.TBROK ∧
      (env.parse_msg = none →
        r = ⟨TType.TBROK, EFlag.plain,
          "you must specify the device used for mounting with -D option", []⟩) ∧
      (∀ msg, env.parse_msg = some msg →
        r = ⟨TType.TBROK, EFlag.plain, "OPTION PARSING ERROR - %s", [Arg.str msg]⟩) ∧
      (run env).log = [r] ∧ (run env).trace = [] ∧ (run env).chown_calls = [] := by
  cases hmsg : env.parse_msg with
  | some msg =>
    refine ⟨⟨TType.TBROK, EFlag.plain, "OPTION PARSING ERROR - %s", [Arg.str msg]⟩, ?_, rfl,
      by simp, by simp, ?_, ?_, ?_⟩ <;>
    simp [run, main, parse_opts, hmsg, Res.world, World.report, World.init]
  | none =>
    have hd : env.dflag = 0 := by
      rcases h with h | h
      · exact absurd hmsg h
      · exact h
    refine ⟨⟨TType.TBROK, EFlag.plain,
      "you must specify the device used for mounting with -D option", []⟩, ?_, rfl,
      by simp, by simp, ?_, ?_, ?_⟩ <;>
    simp [run, main, parse_opts, hmsg, hd, Res.world, World.report, World.init]

/-- C8 at a command line without the device option. -/
theorem C8_device_required_witness :
    (env_no_device.parse_msg ≠ none ∨ env_no_device.dflag = 0) ∧
    (run env_no_device).log = [⟨TType.TBROK, EFlag.plain,
      "you must specify the device used for mounting with -D option", []⟩] ∧
    (run env_no_device).trace = [] ∧ (run env_no_device).chown_calls = [] := by
  have h : env_no_device.parse_msg ≠ none ∨ env_no_device.dflag = 0 := Or.inr rfl
  obtain ⟨r, -, -, hr, -, hlog, htr, hc⟩ := C8_device_required env_no_device h
  exact ⟨h, by rw [hlog, hr rfl], htr, hc⟩

/-- C10: when setup, started in a fresh state with the table as initialised,
returns normally, the table differs from its initialiser only in the pathname
of test_cases[3], which is now the mapped address bad_addr, in a case that
expects EFAULT; the exp_errno and setupfunc fields of all nine cases and the
pathname of every other case are unchanged; and the scenario loops of main,
for any number of iterations, leave the whole table as it is. -/
theorem C10_table_patched_once (env : Env) (w w1 : World) (hF : Fresh w)
    (htab : w.test_cases = test_cases) (hret : setup env w = Res.ret () w1) :
    w1.bad_addr = Ptr.addr (env.mmap_addr : Nat) ∧
    w1.test_cases = set_pathname test_cases 3 w1.bad_addr ∧
    w1.test_cases[3]? = some ⟨w1.bad_addr, EFAULT, none⟩ ∧
    w1.test_cases.length = 9 ∧
    w1.test_cases.map (fun tc => tc.exp_errno) = test_cases.map (fun tc => tc.exp_errno) ∧
    w1.test_cases.map (fun tc => tc.setupfunc) = test_cases.map (fun tc => tc.setupfunc) ∧
    (∀ i, i ≠ 3 → w1.test_cases[i]? = test_cases[i]?) ∧
    (∀ u g, ∃ w2, test_loop env u g w1 = Res.ret () w2 ∧ w2.test_cases = w1.test_cases) := by
  obtain ⟨-, hdone⟩ := setup_ret env w w1 hF hret
  unfold SetupDone at hdone
  have hb : w1.bad_addr = Ptr.addr (env.mmap_addr : Nat) := by rw [hdone]
  have ht : w1.test_cases = set_pathname test_cases 3 w1.bad_addr := by
    rw [hb, hdone, htab]
  have hlen : w1.test_cases.length = 9 := by rw [ht]; rfl
  refine ⟨hb, ht, by rw [ht]; rfl, hlen, by rw [ht]; rfl, by rw [ht]; rfl, ?_, ?_⟩
  · intro i hi
    rw [ht]
    rcases Nat.lt_or_ge i 9 with h9 | h9
    · interval_cases i <;> first | rfl | exact absurd rfl hi
    · rw [List.getElem?_eq_none (by simpa [set_pathname, test_cases] using h9),
        List.getElem?_eq_none (by simpa [test_cases] using h9)]
  · intro u g
    obtain ⟨w2, hrun, hsame, -⟩ := outer_loop env u g env.loops 0 w1 hlen
    exact ⟨w2, hrun, (sameBut_fields hsame).2.1⟩

/-- C10 at a run in which every step succeeds. -/
theorem C10_table_patched_once_witness :
    Fresh (World.init env_good) ∧ (World.init env_good).test_cases = test_cases ∧
    setup env_good (World.init env_good) =
      Res.ret () (after_setup env_good (World.init env_good)) ∧
    (after_setup env_good (World.init env_good)).test_cases =
      set_pathname test_cases 3 (Ptr.addr 4096) := by
  have hF : Fresh (World.init env_good) := ⟨rfl, rfl, rfl, rfl⟩
  have hret := setup_ok env_good (fun _ => rfl) (World.init env_good) rfl
    (by simp [World.init])
  obtain ⟨hb, ht, -⟩ := C10_table_patched_once env_good _ _ hF rfl hret
  refine ⟨hF, rfl, hret, ?_⟩
  rw [ht, hb]
  rfl

end Chown04
